import Mathlib

/-!
Verification development for the rook storage-operator repository.

Shallow embedding of:
  * the low-level device inspection helpers of pkg/util/sys (device listing
    output parsing and partition accounting),
  * the operator-side device discovery manager of pkg/operator/discover
    (in-use record bookkeeping and available-device resolution),
  * the node-local discovery daemon publish step of pkg/daemon/discover,
  * the OSD provisioning and lifecycle agent (directory configuration,
    OSD removal, rebalance wait, backend-selection predicates).

External effects (the Kubernetes config-map store, the ceph cluster client,
shelled-out tools) are modelled as explicit state values or environment
records of step results, following the injected-executor style of the source.
Machine integers of the source (uint64 sizes) are modelled as Nat with
explicit reduction modulo 2 ^ 64 where overflow matters.
-/

/-! ## String helpers

The Go source splits command output with strings.Split on single-character
separators and strips quote characters with strings.Replace. These helpers
model exactly that, by structural recursion over the character data so that
they evaluate inside the kernel. -/

/-- Split on a single separator character; models strings.Split of Go for a
one-character separator (an empty input yields one empty field). -/
def splitCharGo (c : Char) : List Char → List Char → List String
  | [], acc => [String.mk acc.reverse]
  | x :: xs, acc =>
    if x = c then String.mk acc.reverse :: splitCharGo c xs []
    else splitCharGo c xs (x :: acc)

def splitChar (c : Char) (s : String) : List String :=
  splitCharGo c s.data []

/-- Remove every double-quote character; models
strings.Replace of the source with an empty replacement for the quote. -/
def stripQuotes (s : String) : String :=
  String.mk (s.data.filter (fun c => c ≠ '"'))

def digitsToNat (l : List Char) : Nat :=
  l.foldl (fun a c => a * 10 + (c.toNat - 48)) 0

/-- The uint64 modulus. -/
def u64Mod : Nat := 2 ^ 64

/-- Models strconv.ParseUint with base 10 and bit size 64: the text must be a
non-empty run of decimal digits whose value fits in 64 bits. -/
def parseUint64 (s : String) : Option Nat :=
  if s.data ≠ [] ∧ s.data.all (fun c => c.isDigit) then
    (if digitsToNat s.data < u64Mod then some (digitsToNat s.data) else none)
  else none

/-! ## pkg/util/sys device listing parsing (source: device.go) -/

/-- parseKeyValuePairString of the source: split the raw line on spaces, keep
the pairs that split on the equals sign into exactly two parts, and strip the
surrounding quotes from the value. -/
def parseKeyValuePairString (propsRaw : String) : List (String × String) :=
  (splitChar ' ' propsRaw).filterMap (fun kvpRaw =>
    match splitChar '=' kvpRaw with
    | [k, v] => some (k, stripQuotes v)
    | _ => none)

/-- Lookup in the parsed property map. Go map writes let a later duplicate key
win, and a missing key reads as the empty string, hence the reversed search
and the empty-string default. -/
def propsGet (props : List (String × String)) (key : String) : String :=
  match props.reverse.find? (fun p => p.1 == key) with
  | some p => p.2
  | none => ""

def PartType : String := "part"

structure Partition where
  name : String
  size : Nat
  label : String
deriving DecidableEq, Repr

/-- Loop body of GetDevicePartitions over the split lines of the lsblk
output, carrying the partitions found so far, the parsed device size and the
accumulated partition size (both uint64, hence the modulus on accumulation).
GetPartitionLabel, which shells out per partition, is injected as getLabel. -/
def gdpLoop (device : String) (getLabel : String → Except String String) :
    List String → List Partition → Nat → Nat →
    Except String (List Partition × Nat × Nat)
  | [], parts, deviceSize, total => .ok (parts, deviceSize, total)
  | info :: rest, parts, deviceSize, total =>
    let props := parseKeyValuePairString info
    let name := propsGet props "NAME"
    if name == device then
      match parseUint64 (propsGet props "SIZE") with
      | none => .error ("failed to get device " ++ device ++ " size")
      | some d => gdpLoop device getLabel rest parts d total
    else if propsGet props "PKNAME" == device && propsGet props "TYPE" == PartType then
      match parseUint64 (propsGet props "SIZE") with
      | none => .error ("failed to get partition " ++ name ++ " size")
      | some sz =>
        match getLabel name with
        | .error e => .error e
        | .ok label =>
          gdpLoop device getLabel rest (parts ++ [⟨name, sz, label⟩]) deviceSize
            ((total + sz) % u64Mod)
    else gdpLoop device getLabel rest parts deviceSize total

/-- GetDevicePartitions of the source, over the captured lsblk output: split
the output into lines, fold the loop over them, and report the unused space
as the uint64 difference of device size and total partition size when a
positive device size was parsed, zero otherwise. -/
def GetDevicePartitions (device : String) (output : String)
    (getLabel : String → Except String String) :
    Except String (List Partition × Nat) :=
  match gdpLoop device getLabel (splitChar '\n' output) [] 0 0 with
  | .error e => .error e
  | .ok (parts, deviceSize, total) =>
    .ok (parts, if deviceSize > 0 then (deviceSize + u64Mod - total) % u64Mod else 0)

instance {ε α : Type _} [DecidableEq ε] [DecidableEq α] : DecidableEq (Except ε α) :=
  fun x y =>
    match x, y with
    | .ok a, .ok b =>
      if h : a = b then .isTrue (congrArg Except.ok h)
      else .isFalse (fun he => h (Except.ok.inj he))
    | .error a, .error b =>
      if h : a = b then .isTrue (congrArg Except.error h)
      else .isFalse (fun he => h (Except.error.inj he))
    | .ok _, .error _ => .isFalse (fun he => Except.noConfusion he)
    | .error _, .ok _ => .isFalse (fun he => Except.noConfusion he)

/-- A line of the listing output that the loop counts as a child partition of
the device: its NAME differs from the device while its PKNAME matches and its
TYPE is part. -/
def childOf (device : String) (info : String) : Bool :=
  let props := parseKeyValuePairString info
  !(propsGet props "NAME" == device) &&
    (propsGet props "PKNAME" == device && propsGet props "TYPE" == PartType)

/-- A line of the listing output that mentions the device at all (as the
parent device line or as one of its child partitions). -/
def lineMentions (device : String) (info : String) : Bool :=
  let props := parseKeyValuePairString info
  propsGet props "NAME" == device ||
    (propsGet props "PKNAME" == device && propsGet props "TYPE" == PartType)

/-- The parsed byte size of the device: the SIZE field of the last line whose
NAME matches the device (the loop overwrites earlier parses). -/
def parentSizeSpec (device : String) (lines : List String) : Option Nat :=
  match (lines.filter
      (fun info => propsGet (parseKeyValuePairString info) "NAME" == device)).getLast? with
  | none => none
  | some info => parseUint64 (propsGet (parseKeyValuePairString info) "SIZE")

/-- Relation between a child line of the listing output and the Partition
built from it. -/
def childBuilt (getLabel : String → Except String String) (info : String)
    (p : Partition) : Prop :=
  p.name = propsGet (parseKeyValuePairString info) "NAME" ∧
    parseUint64 (propsGet (parseKeyValuePairString info) "SIZE") = some p.size ∧
    getLabel p.name = .ok p.label

/-- uint64 accumulation of the partition sizes. -/
def sumSizesMod (parts : List Partition) (t0 : Nat) : Nat :=
  parts.foldl (fun a p => (a + p.size) % u64Mod) t0

/-! ## pkg/operator/discover: device-claim bookkeeping

The per-node config-map records are modelled as explicit state. A LocalDisk
carries the fields the operator code reads (the richer discovered-device
shape; only the name takes part in any comparison). JSON payloads are
modelled as the parsed lists themselves; a record whose data holds no
devices key is an entry with value none. The Kubernetes store itself is
assumed to accept the performed reads and writes (only the already-exists
failure of Create, which the source propagates, is modelled). Go regexp
matching is injected as rmatch, returning none on a pattern error, mirroring
the matched/err pair of regexp.Match. -/

structure LocalDisk where
  name : String
  size : Nat
  filesystem : String
deriving DecidableEq, Repr

structure Device where
  name : String
deriving DecidableEq, Repr

structure ClaimState where
  raw : List (String × List LocalDisk)
  inUse : List (String × Option (List LocalDisk))
deriving DecidableEq, Repr

/-- ListDevicesInUse of the source: an empty node name is an error; the first
claimed-devices record for the node with a non-empty payload is returned;
otherwise an empty record is created, which fails with already-exists when a
record for the node is present (with an empty payload). -/
def ListDevicesInUse (s : ClaimState) (nodeName : String) :
    Except String (List LocalDisk × ClaimState) :=
  if nodeName == "" then .error "empty node name"
  else
    match s.inUse.find? (fun r => r.1 == nodeName && r.2.isSome) with
    | some r => .ok (r.2.getD [], s)
    | none =>
      if s.inUse.any (fun r => r.1 == nodeName) then .error "already exists"
      else .ok ([], { s with inUse := s.inUse ++ [(nodeName, none)] })

/-- The config-map update performed by GetAvailableDevices: rewrite the data
of the in-use record of the node. -/
def updateInUseRecord (s : ClaimState) (nodeName : String) (devices : List LocalDisk) :
    ClaimState :=
  { s with inUse := s.inUse.map (fun r => if r.1 == nodeName then (r.1, some devices) else r) }

/-- The explicit-device-list selection loop: for every requested device, every
free node device with the same name appends the requested device to the
results. -/
def explicitSelect (devices : List Device) (nodeDevices : List LocalDisk) : List Device :=
  devices.flatMap (fun d => (nodeDevices.filter (fun n => n.name == d.name)).map (fun _ => d))

/-- The devices the explicit-device-list loop appends to the in-use record. -/
def explicitClaims (devices : List Device) (nodeDevices : List LocalDisk) : List LocalDisk :=
  devices.flatMap (fun d => nodeDevices.filter (fun n => n.name == d.name))

/-- The name-filter selection loop: free node devices whose name matches the
pattern without a pattern error. -/
def filterClaims (rmatch : String → String → Option Bool) (filter : String)
    (nodeDevices : List LocalDisk) : List LocalDisk :=
  nodeDevices.filter (fun n => rmatch filter n.name == some true)

def filterSelect (rmatch : String → String → Option Bool) (filter : String)
    (nodeDevices : List LocalDisk) : List Device :=
  (filterClaims rmatch filter nodeDevices).map (fun n => { name := n.name })

/-- The set difference the source computes before selecting: all discovered
devices of the node except those whose name is already in use. -/
def freeDevices (all used : List LocalDisk) : List LocalDisk :=
  all.filter (fun d => !(used.any (fun u => u.name == d.name)))

/-- The selection branches of GetAvailableDevices: explicit device list
first, then the filter branch whose condition compares the filter length to
zero with greater-or-equal (hence always taken when the device list is
empty, leaving the use-all branch as dead code, exactly as in the source),
then the use-all branch, then nothing. Returns the selected devices and the
new in-use list. -/
def gadSelection (devices : List Device) (filter : String) (useAllDevices : Bool)
    (rmatch : String → String → Option Bool) (nodeDevices devicesInUse : List LocalDisk) :
    List Device × List LocalDisk :=
  if devices.length > 0 then
    (explicitSelect devices nodeDevices,
      devicesInUse ++ explicitClaims devices nodeDevices)
  else if filter.length ≥ 0 then
    (filterSelect rmatch filter nodeDevices,
      devicesInUse ++ filterClaims rmatch filter nodeDevices)
  else if useAllDevices then
    (nodeDevices.map (fun n => { name := n.name }), devicesInUse ++ nodeDevices)
  else ([], devicesInUse)

/-- GetAvailableDevices of the source. Returns the selected devices, the
resulting record state and the error, if any. The guard mirrors the early
return when no device list, no filter and no use-all flag are given; a
non-empty selection is appended to the in-use record and persisted. -/
def GetAvailableDevices (s : ClaimState) (nodeName : String) (devices : List Device)
    (filter : String) (useAllDevices : Bool) (rmatch : String → String → Option Bool) :
    List Device × ClaimState × Option String :=
  if devices.length == 0 && filter.length == 0 && !useAllDevices then ([], s, none)
  else
    match s.raw.find? (fun r => r.1 == nodeName) with
    | none => ([], s, some ("node " ++ nodeName ++ " has no devices"))
    | some nodeEntry =>
      match ListDevicesInUse s nodeName with
      | .error e => ([], s, some e)
      | .ok (devicesInUse, s1) =>
        let sel := gadSelection devices filter useAllDevices rmatch
          (freeDevices nodeEntry.2 devicesInUse) devicesInUse
        if sel.1.length > 0 then (sel.1, updateInUseRecord s1 nodeName sel.2, none)
        else (sel.1, s1, none)

/-- Selection policy as the specification words it: a non-empty explicit
device list first, else the name-filter pattern, else the use-all flag, else
nothing; always over the supplied free devices. -/
def selectBySpec (free : List LocalDisk) (devices : List Device) (filter : String)
    (useAll : Bool) (rmatch : String → String → Option Bool) : List Device :=
  if devices ≠ [] then explicitSelect devices free
  else if filter ≠ "" then filterSelect rmatch filter free
  else if useAll then free.map (fun n => { name := n.name })
  else []

/-! ## pkg/daemon/discover: the publish step of Run

The per-node raw-device record is a config map; the backing store is
modelled as an optional record (absent = NotFound on Get). The marshalled
device list enters as the string deviceStr; writes are recorded so that the
no-write case is observable. Store failures other than NotFound on Get and
the error paths before publishing (nil context, marshal failure) are outside
the modelled state. -/

def AppAttr : String := "app"

def AppName : String := "rook-discover"

def NodeAttr : String := "rook.io/node"

def RawDeviceCMName : String := "raw-device-"

structure RawCM where
  name : String
  namespaceName : String
  labels : List (String × String)
  data : Option String
deriving DecidableEq, Repr

inductive CMWrite where
  | create (cm : RawCM)
  | update (cm : RawCM)
deriving DecidableEq, Repr

/-- The publish step of Run: read the existing record (NotFound tolerated);
create it with node and app labels and empty data when absent; then update
it exactly when the stored content differs byte for byte from the new
serialization. Returns the resulting record and the writes performed. -/
def publishDevices (nodeName namespaceName deviceStr : String)
    (store : Option RawCM) : Option RawCM × List CMWrite :=
  match store with
  | some cm =>
    if deviceStr == cm.data.getD "" then (some cm, [])
    else
      (some { cm with data := some deviceStr },
        [CMWrite.update { cm with data := some deviceStr }])
  | none =>
    let cm : RawCM := { name := RawDeviceCMName ++ nodeName,
                        namespaceName := namespaceName,
                        labels := [(AppAttr, AppName), (NodeAttr, nodeName)],
                        data := none }
    if deviceStr == "" then (some cm, [CMWrite.create cm])
    else
      (some { cm with data := some deviceStr },
        [CMWrite.create cm, CMWrite.update { cm with data := some deviceStr }])

/-! ## OSD provisioning and lifecycle agent (package osd)

The ceph cluster client calls (usage, reweight, mark-out, placement-group
dump, clean check, purge), the process manager and the filesystem cleanup
are injected as environment records of step results, in the style of the
injected executor of the source. -/

def Filestore : String := "filestore"

def Bluestore : String := "bluestore"

def unassignedOSDID : Int := -1

structure PerfSchemeEntry where
  id : Int
  osdUUID : String
  storeType : String
deriving DecidableEq, Repr

structure StoreConfig where
  storeType : String
  databaseSizeMB : Nat
  walSizeMB : Nat
  journalSizeMB : Nat
deriving DecidableEq, Repr

/-- osdConfig of the source: the fields the modelled operations read. -/
structure OsdConfig where
  id : Int
  uuid : String
  configRoot : String
  rootPath : String
  dir : Bool
  partitionScheme : Option PerfSchemeEntry
  storeConfig : StoreConfig
deriving DecidableEq, Repr

/-- isBluestoreDevice of the source: a device will use bluestore unless
explicitly requested to be filestore (the default is blank). -/
def isBluestoreDevice (cfg : OsdConfig) : Bool :=
  !cfg.dir && (match cfg.partitionScheme with
               | some e => !(e.storeType == Filestore)
               | none => false)

/-- isBluestoreDir of the source: a dir will use filestore unless explicitly
requested to be bluestore. -/
def isBluestoreDir (cfg : OsdConfig) : Bool :=
  cfg.dir && (cfg.storeConfig.storeType == Bluestore)

def isBluestore (cfg : OsdConfig) : Bool :=
  isBluestoreDevice cfg || isBluestoreDir cfg

def isFilestoreDevice (cfg : OsdConfig) : Bool :=
  !cfg.dir && (match cfg.partitionScheme with
               | some e => e.storeType == Filestore
               | none => false)

def isFilestoreDir (cfg : OsdConfig) : Bool :=
  cfg.dir && !(cfg.storeConfig.storeType == Bluestore)

def isFilestore (cfg : OsdConfig) : Bool :=
  isFilestoreDevice cfg || isFilestoreDir cfg

/-- A device-backed config with a blank scheme store type. -/
def deviceCfgBlank : OsdConfig :=
  { id := 0, uuid := "", configRoot := "", rootPath := "", dir := false,
    partitionScheme := some { id := 0, osdUUID := "", storeType := "" },
    storeConfig := { storeType := "", databaseSizeMB := 0, walSizeMB := 0,
                     journalSizeMB := 0 } }

/-- A directory-backed config with a blank store config type. -/
def dirCfgBlank : OsdConfig :=
  { id := 0, uuid := "", configRoot := "", rootPath := "", dir := true,
    partitionScheme := none,
    storeConfig := { storeType := "", databaseSizeMB := 0, walSizeMB := 0,
                     journalSizeMB := 0 } }

/-- Modelled from the spec: per-daemon usage row of the cluster usage dump
returned by the ceph client (client.GetOSDUsage), with the fields the agent
compares. The client package itself is not part of the provided sources. -/
structure OSDNodeUsage where
  id : Int
  usedKB : Nat
  pgs : Nat
deriving DecidableEq, Repr

structure OSDUsage where
  nodes : List OSDNodeUsage
deriving DecidableEq, Repr

/-- Modelled from the spec: OSDUsage.ByID returns the usage row of the given
daemon, or nothing. -/
def OSDUsage.byID (u : OSDUsage) (osdID : Int) : Option OSDNodeUsage :=
  u.nodes.find? (fun n => n.id == osdID)

/-- Modelled from the spec: one placement-group row of the brief dump, with
the up/acting primary and member fields the agent inspects. -/
structure PGStat where
  pgID : String
  upPrimaryID : Int
  actingPrimaryID : Int
  upOsdIDs : List Int
  actingOsdIDs : List Int
deriving DecidableEq, Repr

/-- The polled cluster answers, one per attempt: usage dumps for phase one,
placement-group dumps and clean checks for phase two. -/
structure RebalanceEnv where
  usage : Nat → Except String OSDUsage
  pgDump : Nat → Except String (List PGStat)
  clean : Nat → Except String Unit

/-- Modelled from the spec: util.Retry runs the action up to maxAttempts
times, a fixed delay apart, stopping at the first success; exhausting the
attempts is an error. The real-time delay is carried but not observable. -/
def retryFrom (f : Nat → Except String Unit) (attempt : Nat) :
    Nat → Except String Unit
  | 0 => .error "max retries exceeded"
  | Nat.succ n =>
    match f attempt with
    | .ok _ => .ok ()
    | .error _ => retryFrom f (attempt + 1) n

def retry (maxAttempts : Nat) (_delaySeconds : Nat)
    (f : Nat → Except String Unit) : Except String Unit :=
  retryFrom f 0 maxAttempts

/-- One phase-one attempt: poll the usage, look up the baseline and current
rows of the daemon (missing rows are an error), and fail while neither the
used space nor the placement-group count has decreased. -/
def phase1Attempt (initialUsage : OSDUsage) (osdID : Int) (env : RebalanceEnv)
    (i : Nat) : Except String Unit :=
  match env.usage i with
  | .error e => .error e
  | .ok currUsage =>
    match initialUsage.byID osdID, currUsage.byID osdID with
    | some initRow, some currRow =>
      if initRow.usedKB ≤ currRow.usedKB && initRow.pgs ≤ currRow.pgs then
        .error "current used space and pg count has not decreased still"
      else .ok ()
    | _, _ => .error "initial OSD usage or current OSD usage not found"

/-- The placement-group scan of a phase-two attempt: the first group still
naming the daemon as up primary, acting primary, up member or acting member
is an error naming the unmet condition. -/
def checkPGs (osdID : Int) : List PGStat → Except String Unit
  | [] => .ok ()
  | pg :: rest =>
    if pg.upPrimaryID = osdID then .error ("osd is still up primary for pg " ++ pg.pgID)
    else if pg.actingPrimaryID = osdID then
      .error ("osd is still acting primary for pg " ++ pg.pgID)
    else if pg.upOsdIDs.contains osdID then
      .error ("osd is still up for pg " ++ pg.pgID)
    else if pg.actingOsdIDs.contains osdID then
      .error ("osd is still acting for pg " ++ pg.pgID)
    else checkPGs osdID rest

/-- One phase-two attempt: poll the placement-group dump, require the daemon
to be absent from every group, then require the cluster clean check. -/
def phase2Attempt (osdID : Int) (env : RebalanceEnv) (i : Nat) :
    Except String Unit :=
  match env.pgDump i with
  | .error e => .error e
  | .ok pgDump =>
    match checkPGs osdID pgDump with
    | .error e => .error e
    | .ok _ => env.clean i

/-- waitForRebalance of the source: phase one (20 attempts, 5 seconds apart)
only when a usage baseline is present, then phase two (3000 attempts, 15
seconds apart). -/
def waitForRebalance (env : RebalanceEnv) (osdID : Int)
    (initialUsage : Option OSDUsage) : Except String Unit :=
  match initialUsage with
  | some u =>
    match retry 20 5 (phase1Attempt u osdID env) with
    | .error e => .error e
    | .ok _ => retry 3000 15 (phase2Attempt osdID env)
  | none => retry 3000 15 (phase2Attempt osdID env)

/-- The step results removeOSD consumes: the usage baseline read, the crush
reweight (whose output string the error message embeds), the mark-out, the
rebalance polls, whether a child process is tracked for the daemon and its
stop result, the cluster purge, the legacy-filestore backup filesystem
deletion and the local root directory removal. -/
structure RemoveEnv where
  getOSDUsage : Except String OSDUsage
  crushReweight : Except String String
  markOut : Except String Unit
  rebalance : RebalanceEnv
  procTracked : Bool
  procStop : Except String Unit
  purge : Except String Unit
  deleteFileSystem : Except String Unit
  removeRootDir : Except String Unit

/-- removeOSD of the source: a failed usage baseline is only logged (the
baseline becomes absent); reweight, mark-out, rebalance-wait, a failing stop
of a tracked process and purge failures abort with an error; the filesystem
and root directory deletions are attempted but their failures are only
logged. -/
def removeOSD (env : RemoveEnv) (osdID : Int) : Except String Unit :=
  let initialUsage := env.getOSDUsage.toOption
  match env.crushReweight with
  | .error e => .error ("failed to reweight osd to 0.0: " ++ e)
  | .ok _ =>
    match env.markOut with
    | .error e => .error ("failed to mark osd out: " ++ e)
    | .ok _ =>
      match waitForRebalance env.rebalance osdID initialUsage with
      | .error e => .error ("failed to wait for cluster rebalancing: " ++ e)
      | .ok _ =>
        match (if env.procTracked then env.procStop else .ok ()) with
        | .error e => .error ("failed to stop proc: " ++ e)
        | .ok _ =>
          match env.purge with
          | .error e => .error ("failed to purge osd from the cluster: " ++ e)
          | .ok _ =>
            let _fsCleanup := env.deleteFileSystem
            let _dirCleanup := env.removeRootDir
            .ok ()

/-- OSDInfo of the source, with the fields the directory pass produces. -/
structure OSDInfo where
  id : Int
  dataPath : String
  isFileStore : Bool
deriving DecidableEq, Repr

/-- The cluster-side effects configureDirs performs: registerOSD results per
registration call (in call order) and the startOSD outcome per directory and
daemon id. -/
structure DirsEnv where
  register : Nat → Except String (Int × String)
  start : String → Int → Except String OSDInfo

/-- The loop of configureDirs over the directory map (map iteration order
modelled as list order), carrying the number of registrations performed, the
started OSDInfos, the processed entries (the mutated map) and the last start
error. A registration failure returns at once with the map mutations made so
far; a start failure is recorded as the last error and the pass continues. -/
def cdLoop (env : DirsEnv) : List (String × Int) → Nat → List OSDInfo →
    List (String × Int) → Option String →
    List OSDInfo × List (String × Int) × Option String
  | [], _, osds, done, lastErr => (osds, done, lastErr)
  | (dirPath, osdID) :: rest, regCount, osds, done, lastErr =>
    if osdID == unassignedOSDID then
      match env.register regCount with
      | .error e => (osds, done ++ (dirPath, osdID) :: rest, some e)
      | .ok (newID, _newUUID) =>
        match env.start dirPath newID with
        | .error e => cdLoop env rest (regCount + 1) osds (done ++ [(dirPath, newID)]) (some e)
        | .ok osd =>
          cdLoop env rest (regCount + 1) (osds ++ [osd]) (done ++ [(dirPath, newID)]) lastErr
    else
      match env.start dirPath osdID with
      | .error e => cdLoop env rest regCount osds (done ++ [(dirPath, osdID)]) (some e)
      | .ok osd => cdLoop env rest regCount (osds ++ [osd]) (done ++ [(dirPath, osdID)]) lastErr

/-- configureDirs of the source: an empty map is a success with nothing
started; otherwise run the loop. Returns the started OSDInfos, the directory
map after its in-place mutation, and the error (the last start error). -/
def configureDirs (env : DirsEnv) (dirs : List (String × Int)) :
    List OSDInfo × List (String × Int) × Option String :=
  if dirs.isEmpty then ([], dirs, none)
  else cdLoop env dirs 0 [] [] none

/-- The id assignment the pass performs on the map: entries carrying the
unassigned id receive the next registered id, in order; assigned entries are
untouched. -/
def assignIDs (regID : Nat → Int) : List (String × Int) → Nat → List (String × Int)
  | [], _ => []
  | (dirPath, osdID) :: rest, regCount =>
    if osdID == unassignedOSDID then
      (dirPath, regID regCount) :: assignIDs regID rest (regCount + 1)
    else (dirPath, osdID) :: assignIDs regID rest regCount

/-- The start error of one processed entry, if any. -/
def startErr (env : DirsEnv) (p : String × Int) : Option String :=
  match env.start p.1 p.2 with
  | .error e => some e
  | .ok _ => none

/-- The started OSDInfo of one processed entry, if any. -/
def startOk (env : DirsEnv) (p : String × Int) : Option OSDInfo :=
  (env.start p.1 p.2).toOption

/-- Number of unassigned entries of a directory map prefix. -/
def countUnassigned (l : List (String × Int)) : Nat :=
  (l.filter (fun p => p.2 == unassignedOSDID)).length

/-- Last error folding: the last of the new errors, else the incoming one. -/
def lastErrCombine (errs : List String) (lastErr : Option String) : Option String :=
  match errs.getLast? with
  | some e => some e
  | none => lastErr

/-- A concrete directory environment: ids from 10 are registered in call
order; starting directory d1 fails, any other directory succeeds. -/
def dirsEnvW : DirsEnv :=
  { register := fun k => .ok ((10 + k : Int), "uuid"),
    start := fun dp i =>
      if dp == "d1" then .error "start failed"
      else .ok { id := i, dataPath := dp, isFileStore := true } }

theorem parseUint64_lt {s : String} {v : Nat} (h : parseUint64 s = some v) : v < u64Mod := by
  unfold parseUint64 at h
  split at h
  · split at h
    · cases h; assumption
    · cases h
  · cases h

theorem u64Mod_pos : 0 < u64Mod := by decide

theorem sumSizesMod_cons (p : Partition) (l : List Partition) (t0 : Nat) :
    sumSizesMod (p :: l) t0 = sumSizesMod l ((t0 + p.size) % u64Mod) := rfl

theorem sumSizesMod_lt (l : List Partition) (t0 : Nat) (h : t0 < u64Mod) :
    sumSizesMod l t0 < u64Mod := by
  induction l generalizing t0 with
  | nil => exact h
  | cons p rest ih => exact ih _ (Nat.mod_lt _ u64Mod_pos)

/-- Loop invariant of gdpLoop: on success the returned partitions extend the
accumulator by exactly one partition per child line (built from that line),
the total is the uint64 sum of the new partition sizes, and the device size
is the parse of the last matching device line (or the accumulator value). -/
theorem gdpLoop_ok_spec (device : String) (getLabel : String → Except String String) :
    ∀ (lines : List String) (parts0 : List Partition) (d0 t0 : Nat)
      (parts : List Partition) (d t : Nat),
      gdpLoop device getLabel lines parts0 d0 t0 = .ok (parts, d, t) →
      ∃ suffix sizes,
        parts = parts0 ++ suffix ∧
        List.Forall₂ (childBuilt getLabel) (lines.filter (childOf device)) suffix ∧
        t = sumSizesMod suffix t0 ∧
        List.Forall₂ (fun info v =>
            parseUint64 (propsGet (parseKeyValuePairString info) "SIZE") = some v)
          (lines.filter (fun info =>
            propsGet (parseKeyValuePairString info) "NAME" == device)) sizes ∧
        d = sizes.getLastD d0 ∧
        (∀ v ∈ sizes, v < u64Mod) ∧
        (t0 < u64Mod → t < u64Mod) := by
  intro lines
  induction lines with
  | nil =>
    intro parts0 d0 t0 parts d t h
    simp only [gdpLoop, Except.ok.injEq, Prod.mk.injEq] at h
    obtain ⟨h1, h2, h3⟩ := h
    exact ⟨[], [], by simp [h1.symm], by simp, by simp [sumSizesMod, h3.symm],
      by simp, by simp [h2.symm], by simp, fun hb => h3 ▸ hb⟩
  | cons info rest ih =>
    intro parts0 d0 t0 parts d t h
    simp only [gdpLoop] at h
    by_cases hname : (propsGet (parseKeyValuePairString info) "NAME" == device) = true
    · rw [if_pos hname] at h
      cases hparse : parseUint64 (propsGet (parseKeyValuePairString info) "SIZE") with
      | none => rw [hparse] at h; cases h
      | some dsz =>
        rw [hparse] at h
        obtain ⟨suffix, sizes, e1, e2, e3, e4, e5, e6, e7⟩ := ih parts0 dsz t0 parts d t h
        refine ⟨suffix, dsz :: sizes, e1, ?_, e3, ?_, ?_, ?_, e7⟩
        · have : childOf device info = false := by
            simp only [childOf, hname]
            rfl
          simpa [this] using e2
        · simp only [List.filter_cons, hname]
          exact List.Forall₂.cons hparse e4
        · rw [List.getLastD_cons]
          exact e5
        · intro v hv
          rcases List.mem_cons.mp hv with hv | hv
          · exact hv ▸ parseUint64_lt hparse
          · exact e6 v hv
    · rw [if_neg hname] at h
      by_cases hchild : (propsGet (parseKeyValuePairString info) "PKNAME" == device &&
          propsGet (parseKeyValuePairString info) "TYPE" == PartType) = true
      · rw [if_pos hchild] at h
        cases hparse : parseUint64 (propsGet (parseKeyValuePairString info) "SIZE") with
        | none => rw [hparse] at h; cases h
        | some sz =>
          rw [hparse] at h
          cases hlab : getLabel (propsGet (parseKeyValuePairString info) "NAME") with
          | error e => rw [hlab] at h; cases h
          | ok label =>
            rw [hlab] at h
            obtain ⟨suffix, sizes, e1, e2, e3, e4, e5, e6, e7⟩ :=
              ih (parts0 ++ [⟨propsGet (parseKeyValuePairString info) "NAME", sz, label⟩])
                d0 ((t0 + sz) % u64Mod) parts d t h
            refine ⟨⟨propsGet (parseKeyValuePairString info) "NAME", sz, label⟩ :: suffix,
              sizes, by simpa using e1, ?_, ?_, ?_, e5, e6, fun _ => e7 (Nat.mod_lt _ u64Mod_pos)⟩
            · have hco : childOf device info = true := by
                simp only [childOf, hname, hchild]
                rfl
              simp only [List.filter_cons, hco]
              exact List.Forall₂.cons ⟨rfl, hparse, hlab⟩ e2
            · rw [sumSizesMod_cons]
              exact e3
            · have : (propsGet (parseKeyValuePairString info) "NAME" == device) = false := by
                simpa using hname
              simpa [List.filter_cons, this] using e4
      · rw [if_neg hchild] at h
        obtain ⟨suffix, sizes, e1, e2, e3, e4, e5, e6, e7⟩ := ih parts0 d0 t0 parts d t h
        have hco : childOf device info = false := by
          simp only [childOf]
          rcases Bool.eq_false_iff.mpr hchild with _
          simp [Bool.eq_false_iff.mpr hchild]
        have hnm : (propsGet (parseKeyValuePairString info) "NAME" == device) = false := by
          simpa using hname
        exact ⟨suffix, sizes, e1, by simpa [List.filter_cons, hco] using e2, e3,
          by simpa [List.filter_cons, hnm] using e4, e5, e6, e7⟩

/-- Lines that do not mention the device are skipped by the loop. -/
theorem gdpLoop_skip (device : String) (getLabel : String → Except String String) :
    ∀ (lines : List String) (parts0 : List Partition) (d0 t0 : Nat),
      (∀ info ∈ lines, lineMentions device info = false) →
      gdpLoop device getLabel lines parts0 d0 t0 = .ok (parts0, d0, t0) := by
  intro lines
  induction lines with
  | nil => intro parts0 d0 t0 _; rfl
  | cons info rest ih =>
    intro parts0 d0 t0 hall
    have hinfo := hall info (List.mem_cons_self info rest)
    simp only [lineMentions, Bool.or_eq_false_iff] at hinfo
    simp only [gdpLoop, hinfo.1, hinfo.2, if_false, Bool.false_eq_true]
    exact ih parts0 d0 t0 (fun i hi => hall i (List.mem_cons_of_mem info hi))

/-- The last elements of two lists related by Forall₂ are related. -/
theorem forallTwo_getLast {α β : Type _} {R : α → β → Prop} :
    ∀ {l1 : List α} {l2 : List β}, List.Forall₂ R l1 l2 →
      ∀ {a : α}, l1.getLast? = some a → ∃ b, l2.getLast? = some b ∧ R a b := by
  intro l1 l2 h
  induction h with
  | nil => intro a ha; cases ha
  | @cons x y l1' l2' hr ht ih =>
    intro a ha
    cases ht with
    | nil =>
      simp only [List.getLast?_singleton, Option.some.injEq] at ha
      exact ⟨y, by simp [List.getLast?_singleton], ha ▸ hr⟩
    | @cons x2 y2 l1'' l2'' hr2 ht2 =>
      rw [List.getLast?_cons_cons] at ha
      obtain ⟨b, hb, hrb⟩ := ih ha
      exact ⟨b, by rw [List.getLast?_cons_cons]; exact hb, hrb⟩

/-- C7: GetDevicePartitions returns exactly the child entries of the listing
output whose parent field matches the device and whose type is part, each
built from its line (name, parsed size, looked-up label); the unused space
equals the uint64 difference of the parsed parent size and the accumulated
child sizes whenever a positive parent size was parsed, and is zero when no
line parses a size for the device; a device mentioned by no line at all
yields zero partitions and zero unused space with no error. -/
theorem c7_GetDevicePartitions_accounting
    (device output : String) (getLabel : String → Except String String) :
    (∀ parts unused,
      GetDevicePartitions device output getLabel = .ok (parts, unused) →
        List.Forall₂ (childBuilt getLabel)
          ((splitChar '\n' output).filter (childOf device)) parts ∧
        (∀ v, parentSizeSpec device (splitChar '\n' output) = some v → 0 < v →
          unused = (v + u64Mod - sumSizesMod parts 0) % u64Mod) ∧
        ((splitChar '\n' output).filter (fun info =>
            propsGet (parseKeyValuePairString info) "NAME" == device) = [] →
          unused = 0)) ∧
    ((∀ info ∈ splitChar '\n' output, lineMentions device info = false) →
      GetDevicePartitions device output getLabel = .ok ([], 0)) := by
  constructor
  · intro parts unused h
    unfold GetDevicePartitions at h
    cases hloop : gdpLoop device getLabel (splitChar '\n' output) [] 0 0 with
    | error e => rw [hloop] at h; cases h
    | ok res =>
      obtain ⟨parts', d, t⟩ := res
      rw [hloop] at h
      simp only [Except.ok.injEq, Prod.mk.injEq] at h
      obtain ⟨hp, hu⟩ := h
      subst hp
      obtain ⟨suffix, sizes, e1, e2, e3, e4, e5, _, e7⟩ :=
        gdpLoop_ok_spec device getLabel (splitChar '\n' output) [] 0 0 parts' d t hloop
      simp only [List.nil_append] at e1
      subst e1
      refine ⟨e2, ?_, ?_⟩
      · intro v hv hvpos
        unfold parentSizeSpec at hv
        cases hlast : (List.filter (fun info =>
            propsGet (parseKeyValuePairString info) "NAME" == device)
              (splitChar '\n' output)).getLast? with
        | none => rw [hlast] at hv; cases hv
        | some lastInfo =>
          rw [hlast] at hv
          obtain ⟨w, hw, hrw⟩ := forallTwo_getLast e4 hlast
          have hdw : d = w := by
            rw [e5, List.getLastD_eq_getLast?, hw]
            rfl
          have hv2 : parseUint64 (propsGet (parseKeyValuePairString lastInfo) "SIZE")
              = some v := hv
          have hvw : v = w := by
            rw [hrw] at hv2
            exact (Option.some.inj hv2).symm
          have hdpos : 0 < d := by rw [hdw, ← hvw]; exact hvpos
          rw [← hu, if_pos hdpos, hdw, ← hvw, e3]
      · intro hnone
        rw [hnone] at e4
        cases e4 with
        | nil =>
          have : d = 0 := by rw [e5]; rfl
          rw [← hu, this]
          simp
  · intro hall
    unfold GetDevicePartitions
    rw [gdpLoop_skip device getLabel _ [] 0 0 hall]
    rfl

/-- Witness for C7: the unknown device sdx yields no partitions, no unused
space and no error, and for device sdb the three child lines yield exactly
the three partitions of the mocked listing. -/
theorem c7_witness :
    GetDevicePartitions "sdx" "NAME=\"sdb\" SIZE=\"65\" TYPE=\"disk\" PKNAME=\"\""
        (fun _ => .ok "") = .ok ([], 0) ∧
    List.Forall₂ (childBuilt (fun name => Except.ok (if name == "sdb2" then "ROOK-OSD0-DB"
        else if name == "sdb3" then "ROOK-OSD0-BLOCK" else "ROOK-OSD0-WAL")))
      ((splitChar '\n'
          "NAME=\"sdb\" SIZE=\"65\" TYPE=\"disk\" PKNAME=\"\"\nNAME=\"sdb2\" SIZE=\"10\" TYPE=\"part\" PKNAME=\"sdb\"\nNAME=\"sdb3\" SIZE=\"20\" TYPE=\"part\" PKNAME=\"sdb\"\nNAME=\"sdb1\" SIZE=\"30\" TYPE=\"part\" PKNAME=\"sdb\"").filter
        (childOf "sdb"))
      [⟨"sdb2", 10, "ROOK-OSD0-DB"⟩, ⟨"sdb3", 20, "ROOK-OSD0-BLOCK"⟩,
        ⟨"sdb1", 30, "ROOK-OSD0-WAL"⟩] :=
  ⟨(c7_GetDevicePartitions_accounting "sdx"
      "NAME=\"sdb\" SIZE=\"65\" TYPE=\"disk\" PKNAME=\"\"" (fun _ => .ok "")).2
      (by decide),
   ((c7_GetDevicePartitions_accounting "sdb"
      "NAME=\"sdb\" SIZE=\"65\" TYPE=\"disk\" PKNAME=\"\"\nNAME=\"sdb2\" SIZE=\"10\" TYPE=\"part\" PKNAME=\"sdb\"\nNAME=\"sdb3\" SIZE=\"20\" TYPE=\"part\" PKNAME=\"sdb\"\nNAME=\"sdb1\" SIZE=\"30\" TYPE=\"part\" PKNAME=\"sdb\""
      (fun name => Except.ok (if name == "sdb2" then "ROOK-OSD0-DB"
        else if name == "sdb3" then "ROOK-OSD0-BLOCK" else "ROOK-OSD0-WAL"))).1
      [⟨"sdb2", 10, "ROOK-OSD0-DB"⟩, ⟨"sdb3", 20, "ROOK-OSD0-BLOCK"⟩,
        ⟨"sdb1", 30, "ROOK-OSD0-WAL"⟩] 5 (by decide)).1⟩

/-- C9: when the loop parses a positive device size d strictly smaller than
the accumulated child partition size t, GetDevicePartitions succeeds and
reports the wrap-around uint64 difference, which is nonzero. -/
theorem c9_unusedSpace_wraps (device output : String)
    (getLabel : String → Except String String) (parts : List Partition) (d t : Nat)
    (h : gdpLoop device getLabel (splitChar '\n' output) [] 0 0 = .ok (parts, d, t))
    (hd : 0 < d) (hlt : d < t) :
    GetDevicePartitions device output getLabel = .ok (parts, (d + u64Mod - t) % u64Mod) ∧
    t = sumSizesMod parts 0 ∧
    (d + u64Mod - t) % u64Mod = u64Mod - (t - d) ∧
    (d + u64Mod - t) % u64Mod ≠ 0 := by
  obtain ⟨suffix, sizes, e1, _, e3, _, _, _, e7⟩ :=
    gdpLoop_ok_spec device getLabel (splitChar '\n' output) [] 0 0 parts d t h
  simp only [List.nil_append] at e1
  subst e1
  have ht : t < u64Mod := e7 u64Mod_pos
  have hmod : (d + u64Mod - t) % u64Mod = u64Mod - (t - d) := by
    have hlt2 : d + u64Mod - t < u64Mod := by omega
    rw [Nat.mod_eq_of_lt hlt2]
    omega
  have hGDP : GetDevicePartitions device output getLabel
      = .ok (parts, if d > 0 then (d + u64Mod - t) % u64Mod else 0) := by
    unfold GetDevicePartitions
    rw [h]
  refine ⟨?_, e3, hmod, ?_⟩
  · rw [hGDP, if_pos hd]
  · rw [hmod]
    omega

/-- Witness for C9: parent size 5, one child of size 10; the unused space is
the wrap-around difference and is nonzero. -/
theorem c9_witness :
    GetDevicePartitions "sdb"
        "NAME=\"sdb\" SIZE=\"5\" TYPE=\"disk\" PKNAME=\"\"\nNAME=\"sdb1\" SIZE=\"10\" TYPE=\"part\" PKNAME=\"sdb\""
        (fun _ => .ok "L") = .ok ([⟨"sdb1", 10, "L"⟩], (5 + u64Mod - 10) % u64Mod) ∧
    (5 + u64Mod - 10) % u64Mod ≠ 0 :=
  let h := c9_unusedSpace_wraps "sdb"
    "NAME=\"sdb\" SIZE=\"5\" TYPE=\"disk\" PKNAME=\"\"\nNAME=\"sdb1\" SIZE=\"10\" TYPE=\"part\" PKNAME=\"sdb\""
    (fun _ => .ok "L") [⟨"sdb1", 10, "L"⟩] 5 10 (by decide) (by decide) (by decide)
  ⟨h.1, h.2.2.2⟩

/-- Only the first two branches of gadSelection are reachable, because the
length of a string is never below zero. -/
theorem gadSelection_reachable (devices : List Device) (filter : String)
    (useAll : Bool) (rmatch : String → String → Option Bool)
    (free used : List LocalDisk) :
    gadSelection devices filter useAll rmatch free used =
      if devices.length > 0 then
        (explicitSelect devices free, used ++ explicitClaims devices free)
      else (filterSelect rmatch filter free, used ++ filterClaims rmatch filter free) := by
  unfold gadSelection
  by_cases h : devices.length > 0
  · rw [if_pos h, if_pos h]
  · rw [if_neg h, if_neg h, if_pos (Nat.zero_le _)]

theorem string_length_zero {s : String} : s.length = 0 ↔ s = "" := by
  constructor
  · intro h
    cases s with
    | mk data =>
      have : data = [] := List.length_eq_zero.mp h
      rw [this]
  · intro h
    subst h
    rfl

/-- C2: the selection of GetAvailableDevices is computed over the free
devices (the discovered devices of the node minus those in use) with the
priority: non-empty explicit list, else name filter, else use-all flag;
and when the explicit list is empty, the filter is empty and use-all is
false, the call returns an empty result with the state untouched. The empty
filter pattern matching every name (a fact of Go regexp matching) enters as
the hypothesis on rmatch. -/
theorem c2_GetAvailableDevices_policy
    (s : ClaimState) (nodeName : String) (devices : List Device) (filter : String)
    (useAll : Bool) (rmatch : String → String → Option Bool)
    (hm : ∀ nm, rmatch "" nm = some true) :
    (devices = [] → filter = "" → useAll = false →
      GetAvailableDevices s nodeName devices filter useAll rmatch = ([], s, none)) ∧
    (∀ nodeEntry devicesInUse s1,
      s.raw.find? (fun r => r.1 == nodeName) = some nodeEntry →
      ListDevicesInUse s nodeName = .ok (devicesInUse, s1) →
      (GetAvailableDevices s nodeName devices filter useAll rmatch).1 =
        selectBySpec (freeDevices nodeEntry.2 devicesInUse)
          devices filter useAll rmatch) := by
  constructor
  · intro h1 h2 h3
    subst h1; subst h2; subst h3
    rfl
  · intro nodeEntry devicesInUse s1 hfind hld
    by_cases hempty : devices = [] ∧ filter = "" ∧ useAll = false
    · obtain ⟨h1, h2, h3⟩ := hempty
      subst h1; subst h2; subst h3
      simp [GetAvailableDevices, selectBySpec]
    · have hguard : (devices.length == 0 && filter.length == 0 && !useAll) = false := by
        by_contra hne
        have hc : (devices.length == 0 && filter.length == 0 && !useAll) = true := by
          cases hb : (devices.length == 0 && filter.length == 0 && !useAll)
          · exact absurd hb hne
          · rfl
        simp only [Bool.and_eq_true, beq_iff_eq, Bool.not_eq_true'] at hc
        exact hempty ⟨List.length_eq_zero.mp hc.1.1, string_length_zero.mp hc.1.2, hc.2⟩
      unfold GetAvailableDevices
      rw [hguard, hfind, hld]
      simp only [Bool.false_eq_true, if_false]
      rw [gadSelection_reachable]
      by_cases hdev : devices = []
      · subst hdev
        simp only [List.length_nil, gt_iff_lt, Nat.lt_irrefl, if_false]
        by_cases hfil : filter = ""
        · subst hfil
          have huse : useAll = true := by
            cases useAll
            · exact absurd ⟨rfl, rfl, rfl⟩ hempty
            · rfl
          subst huse
          have hfs : filterSelect rmatch "" (freeDevices nodeEntry.2 devicesInUse) =
              (freeDevices nodeEntry.2 devicesInUse).map (fun n => { name := n.name }) := by
            unfold filterSelect filterClaims
            rw [List.filter_eq_self.mpr]
            intro n _
            rw [hm n.name]
            rfl
          unfold selectBySpec
          simp only [ne_eq, not_true_eq_false, if_false, if_true, hfs]
          split <;> rfl
        · unfold selectBySpec
          simp only [ne_eq, not_true_eq_false, if_false, hfil, not_false_eq_true, if_true]
          split <;> rfl
      · have hlen : 0 < devices.length := List.length_pos.mpr hdev
        rw [if_pos hlen]
        unfold selectBySpec
        rw [if_pos hdev]
        split <;> rfl

/-- Witness for C2: the all-empty policy is a no-op, and with the use-all
flag the one free device of the node is selected per the spec policy. -/
theorem c2_witness :
    (GetAvailableDevices { raw := [("node1", [⟨"sda", 100, ""⟩])], inUse := [] } "node1"
        [] "" false (fun _ _ => some true) =
      ([], { raw := [("node1", [⟨"sda", 100, ""⟩])], inUse := [] }, none)) ∧
    (GetAvailableDevices { raw := [("node1", [⟨"sda", 100, ""⟩])], inUse := [] } "node1"
        [] "" true (fun _ _ => some true)).1 =
      selectBySpec (freeDevices [⟨"sda", 100, ""⟩] [])
        [] "" true (fun _ _ => some true) :=
  ⟨(c2_GetAvailableDevices_policy _ "node1" [] "" false _ (fun _ => rfl)).1 rfl rfl rfl,
   (c2_GetAvailableDevices_policy
      { raw := [("node1", [⟨"sda", 100, ""⟩])], inUse := [] } "node1" [] "" true
      (fun _ _ => some true) (fun _ => rfl)).2
     ("node1", [⟨"sda", 100, ""⟩]) []
     { raw := [("node1", [⟨"sda", 100, ""⟩])], inUse := [("node1", none)] }
     (by decide) (by decide)⟩

/-- A successful ListDevicesInUse keeps the raw records, requires a non-empty
node name, and leaves behind a record for the node. -/
theorem ListDevicesInUse_ok_props {s : ClaimState} {nodeName : String}
    {l : List LocalDisk} {s' : ClaimState}
    (h : ListDevicesInUse s nodeName = .ok (l, s')) :
    s'.raw = s.raw ∧ (nodeName == "") = false ∧
      ∃ r ∈ s'.inUse, (r.1 == nodeName) = true := by
  unfold ListDevicesInUse at h
  by_cases hn : (nodeName == "") = true
  · rw [if_pos hn] at h; cases h
  · rw [if_neg hn] at h
    cases hf : s.inUse.find? (fun r => r.1 == nodeName && r.2.isSome) with
    | some r =>
      rw [hf] at h
      simp only [Except.ok.injEq, Prod.mk.injEq] at h
      obtain ⟨_, hs⟩ := h
      subst hs
      have hmem := List.mem_of_find?_eq_some hf
      have hcond := List.find?_some hf
      simp only [Bool.and_eq_true] at hcond
      exact ⟨rfl, Bool.eq_false_iff.mpr hn, r, hmem, hcond.1⟩
    | none =>
      rw [hf] at h
      by_cases ha : s.inUse.any (fun r => r.1 == nodeName) = true
      · rw [if_pos ha] at h; cases h
      · rw [if_neg ha] at h
        simp only [Except.ok.injEq, Prod.mk.injEq] at h
        obtain ⟨_, hs⟩ := h
        subst hs
        exact ⟨rfl, Bool.eq_false_iff.mpr hn, (nodeName, none), by simp, by simp⟩

/-- After updating the in-use record of the node, the first record found for
the node carries the new device list. -/
theorem updateInUse_find (l : List (String × Option (List LocalDisk)))
    (nodeName : String) (xs : List LocalDisk)
    (h : ∃ r ∈ l, (r.1 == nodeName) = true) :
    ∃ k, (l.map (fun r => if r.1 == nodeName then (r.1, some xs) else r)).find?
        (fun r => r.1 == nodeName && r.2.isSome) = some (k, some xs) ∧
      (k == nodeName) = true := by
  induction l with
  | nil => obtain ⟨r, hr, _⟩ := h; cases hr
  | cons r rest ih =>
    by_cases hr : (r.1 == nodeName) = true
    · refine ⟨r.1, ?_, hr⟩
      simp only [List.map_cons, if_pos hr]
      rw [List.find?_cons_of_pos]
      simp [hr]
    · obtain ⟨r', hr', hc⟩ := h
      have hrest : r' ∈ rest := by
        rcases List.mem_cons.mp hr' with h1 | h1
        · exact absurd (h1 ▸ hc) hr
        · exact h1
      obtain ⟨k, hk, hkn⟩ := ih ⟨r', hrest, hc⟩
      refine ⟨k, ?_, hkn⟩
      simp only [List.map_cons, if_neg hr]
      rw [List.find?_cons_of_neg]
      · exact hk
      · simp [hr]

/-- Calling ListDevicesInUse again after the update returns the updated list
and leaves the state untouched. -/
theorem ListDevicesInUse_after_update {sMid : ClaimState} {nodeName : String}
    {xs : List LocalDisk} (hn : (nodeName == "") = false)
    (hex : ∃ r ∈ sMid.inUse, (r.1 == nodeName) = true) :
    ListDevicesInUse (updateInUseRecord sMid nodeName xs) nodeName =
      .ok (xs, updateInUseRecord sMid nodeName xs) := by
  unfold ListDevicesInUse
  rw [if_neg (by rw [hn]; exact Bool.false_ne_true)]
  obtain ⟨k, hk, _⟩ := updateInUse_find sMid.inUse nodeName xs hex
  have hshow : (updateInUseRecord sMid nodeName xs).inUse =
      sMid.inUse.map (fun r => if r.1 == nodeName then (r.1, some xs) else r) := rfl
  rw [hshow, hk]
  rfl

/-- Membership in the free set after appending claims implies membership in
the earlier free set and absence (by name) from the appended claims. -/
theorem mem_free_append {all old adds : List LocalDisk} {n : LocalDisk}
    (h : n ∈ freeDevices all (old ++ adds)) :
    n ∈ freeDevices all old ∧ (adds.any (fun u => u.name == n.name)) = false := by
  unfold freeDevices at h ⊢
  rw [List.mem_filter] at h
  obtain ⟨hmem, hcond⟩ := h
  rw [Bool.not_eq_true', List.any_append, Bool.or_eq_false_iff] at hcond
  refine ⟨List.mem_filter.mpr ⟨hmem, ?_⟩, hcond.2⟩
  rw [Bool.not_eq_true']
  exact hcond.1

/-- After the explicit-list branch wrote its claims, a second explicit-list
pass over the new free set selects nothing. -/
theorem explicitSelect_second_nil (devices : List Device) (all old : List LocalDisk) :
    explicitSelect devices
      (freeDevices all (old ++ explicitClaims devices (freeDevices all old))) = [] := by
  apply List.eq_nil_iff_forall_not_mem.mpr
  intro d hd
  rw [explicitSelect, List.mem_flatMap] at hd
  obtain ⟨d', hd', hmem⟩ := hd
  rw [List.mem_map] at hmem
  obtain ⟨n, hn, _⟩ := hmem
  rw [List.mem_filter] at hn
  obtain ⟨hnfree2, hname⟩ := hn
  obtain ⟨hfree1, hany⟩ := mem_free_append hnfree2
  have hadds : n ∈ explicitClaims devices (freeDevices all old) := by
    rw [explicitClaims, List.mem_flatMap]
    exact ⟨d', hd', List.mem_filter.mpr ⟨hfree1, hname⟩⟩
  have : (explicitClaims devices (freeDevices all old)).any
      (fun u => u.name == n.name) = true :=
    List.any_eq_true.mpr ⟨n, hadds, by simp⟩
  rw [hany] at this
  cases this

/-- After the filter branch wrote its claims, a second filter pass over the
new free set selects nothing. -/
theorem filterClaims_second_nil (rmatch : String → String → Option Bool)
    (filter : String) (all old : List LocalDisk) :
    filterClaims rmatch filter
      (freeDevices all (old ++ filterClaims rmatch filter (freeDevices all old))) = [] := by
  apply List.eq_nil_iff_forall_not_mem.mpr
  intro n hn
  rw [filterClaims, List.mem_filter] at hn
  obtain ⟨hnfree2, hpred⟩ := hn
  obtain ⟨hfree1, hany⟩ := mem_free_append hnfree2
  have hadds : n ∈ filterClaims rmatch filter (freeDevices all old) :=
    List.mem_filter.mpr ⟨hfree1, hpred⟩
  have : (filterClaims rmatch filter (freeDevices all old)).any
      (fun u => u.name == n.name) = true :=
    List.any_eq_true.mpr ⟨n, hadds, by simp⟩
  rw [hany] at this
  cases this

theorem count_filter_beq (names : List String) (y x : String) :
    (names.filter (fun a => a == y)).count x = if y = x then names.count x else 0 := by
  by_cases h : y = x
  · subst h
    rw [if_pos rfl]
    exact List.count_filter (by simp)
  · rw [if_neg h, List.count_eq_zero]
    intro hx
    rw [List.mem_filter] at hx
    exact h (beq_iff_eq.mp hx.2).symm

theorem map_name_filter (free : List LocalDisk) (y : String) :
    (free.filter (fun n => n.name == y)).map LocalDisk.name =
      (free.map LocalDisk.name).filter (fun a => a == y) := by
  induction free with
  | nil => rfl
  | cons n rest ih =>
    by_cases h : (n.name == y) = true
    · simp only [List.filter_cons, h, List.map_cons, if_true, ih]
    · simp only [List.filter_cons, h, Bool.false_eq_true, if_false, List.map_cons, ih]

/-- Name multiplicity in the claims of the explicit-list branch: every
occurrence of the name in the requested list is paired with every free
device of that name. -/
theorem count_explicitClaims (devices : List Device) (free : List LocalDisk) (x : String) :
    ((explicitClaims devices free).map LocalDisk.name).count x =
      (devices.map Device.name).count x * ((free.map LocalDisk.name).count x) := by
  induction devices with
  | nil => simp [explicitClaims]
  | cons d rest ih =>
    have hcons : explicitClaims (d :: rest) free =
        free.filter (fun n => n.name == d.name) ++ explicitClaims rest free := by
      unfold explicitClaims
      rw [List.flatMap_cons]
    rw [hcons, List.map_append, List.count_append, ih, map_name_filter,
      count_filter_beq, List.map_cons, List.count_cons]
    by_cases h : d.name = x
    · rw [if_pos h]
      simp only [h, beq_self_eq_true, if_true]
      ring
    · rw [if_neg h]
      have hb : (d.name == x) = false := beq_eq_false_iff_ne.mpr h
      rw [hb]
      simp only [Bool.false_eq_true, if_false]
      ring

/-- Counterexample to C1 as stated: with one discovered device sda, an empty
in-use record and the explicit desired list [sda], the first call selects
sda and the second call (unchanged raw inventory, unchanged desired list)
returns the empty list, not the same selection. -/
theorem c1_counterexample :
    (GetAvailableDevices ⟨[("node1", [⟨"sda", 100, ""⟩])], []⟩ "node1" [⟨"sda"⟩] "" false
        (fun _ _ => some true)).1 = [⟨"sda"⟩] ∧
    (GetAvailableDevices ⟨[("node1", [⟨"sda", 100, ""⟩])], []⟩ "node1" [⟨"sda"⟩] "" false
        (fun _ _ => some true)).2.2 = none ∧
    (GetAvailableDevices
        (GetAvailableDevices ⟨[("node1", [⟨"sda", 100, ""⟩])], []⟩ "node1" [⟨"sda"⟩] "" false
          (fun _ _ => some true)).2.1
        "node1" [⟨"sda"⟩] "" false (fun _ _ => some true)).1 = [] ∧
    (GetAvailableDevices
        (GetAvailableDevices ⟨[("node1", [⟨"sda", 100, ""⟩])], []⟩ "node1" [⟨"sda"⟩] "" false
          (fun _ _ => some true)).2.1
        "node1" [⟨"sda"⟩] "" false (fun _ _ => some true)).1 ≠
      (GetAvailableDevices ⟨[("node1", [⟨"sda", 100, ""⟩])], []⟩ "node1" [⟨"sda"⟩] "" false
        (fun _ _ => some true)).1 := by decide

/-- C1 amended: with the raw inventory and the desired list unchanged, a
first call that selects a non-empty device list claims those devices, so the
second call returns the empty list and leaves the state untouched; and
provided the node has no duplicate discovered device names and the desired
list has no duplicate names, the in-use record after the second call holds
exactly one entry for each selected device name. -/
theorem c1_amended
    (s : ClaimState) (nodeName : String) (devices : List Device) (filter : String)
    (useAll : Bool) (rmatch : String → String → Option Bool)
    (r1 : List Device) (s1 : ClaimState)
    (h1 : GetAvailableDevices s nodeName devices filter useAll rmatch = (r1, s1, none))
    (hne : r1 ≠ []) :
    GetAvailableDevices s1 nodeName devices filter useAll rmatch = ([], s1, none) ∧
    (∀ nodeEntry, s.raw.find? (fun r => r.1 == nodeName) = some nodeEntry →
      (nodeEntry.2.map LocalDisk.name).Nodup →
      (devices.map Device.name).Nodup →
      ∀ rec2, s1.inUse.find? (fun r => r.1 == nodeName && r.2.isSome) = some rec2 →
      ∀ d ∈ r1, ((rec2.2.getD []).map LocalDisk.name).count d.name = 1) := by
  unfold GetAvailableDevices at h1
  by_cases hguard : (devices.length == 0 && filter.length == 0 && !useAll) = true
  · rw [if_pos hguard] at h1
    simp only [Prod.mk.injEq] at h1
    exact absurd h1.1.symm hne
  · rw [if_neg hguard] at h1
    cases hfind : s.raw.find? (fun r => r.1 == nodeName) with
    | none =>
      rw [hfind] at h1
      simp only [Prod.mk.injEq] at h1
      cases h1.2.2
    | some nodeEntry0 =>
      rw [hfind] at h1
      cases hld : ListDevicesInUse s nodeName with
      | error e =>
        rw [hld] at h1
        simp only [Prod.mk.injEq] at h1
        cases h1.2.2
      | ok pr =>
        obtain ⟨old, sMid⟩ := pr
        rw [hld] at h1
        dsimp only at h1
        rw [gadSelection_reachable] at h1
        obtain ⟨hrawMid, hn, hex⟩ := ListDevicesInUse_ok_props hld
        by_cases hdev : devices.length > 0
        · rw [if_pos hdev] at h1
          dsimp only at h1
          by_cases hsel :
              (explicitSelect devices (freeDevices nodeEntry0.2 old)).length > 0
          · rw [if_pos hsel] at h1
            simp only [Prod.mk.injEq] at h1
            obtain ⟨hr1, hs1, _⟩ := h1
            subst hr1
            subst hs1
            constructor
            · unfold GetAvailableDevices
              rw [if_neg hguard]
              have hraw1 : (updateInUseRecord sMid nodeName
                  (old ++ explicitClaims devices (freeDevices nodeEntry0.2 old))).raw
                    = s.raw := hrawMid
              rw [hraw1, hfind, ListDevicesInUse_after_update hn hex]
              dsimp only
              rw [gadSelection_reachable, if_pos hdev]
              rw [explicitSelect_second_nil]
              rfl
            · intro nodeEntry hfind2 hnodupAll hnodupDev rec2 hrec2 d hd
              have he : nodeEntry0 = nodeEntry := Option.some.inj hfind2
              subst he
              obtain ⟨k, hk, _⟩ := updateInUse_find sMid.inUse nodeName
                (old ++ explicitClaims devices (freeDevices nodeEntry0.2 old)) hex
              have hrec2' : rec2 = (k, some (old ++
                  explicitClaims devices (freeDevices nodeEntry0.2 old))) := by
                have hkk : (updateInUseRecord sMid nodeName
                    (old ++ explicitClaims devices (freeDevices nodeEntry0.2 old))).inUse.find?
                      (fun r => r.1 == nodeName && r.2.isSome) = some (k, some (old ++
                        explicitClaims devices (freeDevices nodeEntry0.2 old))) := hk
                rw [hrec2] at hkk
                exact Option.some.inj hkk
              rw [hrec2', Option.getD_some, List.map_append, List.count_append]
              rw [explicitSelect, List.mem_flatMap] at hd
              obtain ⟨d', hd'mem, hmap⟩ := hd
              rw [List.mem_map] at hmap
              obtain ⟨n, hnmem, hdeq⟩ := hmap
              subst hdeq
              rw [List.mem_filter] at hnmem
              obtain ⟨hnfree, hname⟩ := hnmem
              have hnameEq : n.name = d'.name := beq_iff_eq.mp hname
              have hfreeMem := hnfree
              rw [freeDevices, List.mem_filter] at hfreeMem
              obtain ⟨hnall, hnotused⟩ := hfreeMem
              rw [Bool.not_eq_true', List.any_eq_false] at hnotused
              have hold : (old.map LocalDisk.name).count d'.name = 0 := by
                rw [List.count_eq_zero]
                intro hmem
                rw [List.mem_map] at hmem
                obtain ⟨u, humem, huname⟩ := hmem
                have := hnotused u humem
                rw [huname, ← hnameEq] at this
                simp at this
              have hfreeSub : ((freeDevices nodeEntry0.2 old).map LocalDisk.name).Sublist
                  (nodeEntry0.2.map LocalDisk.name) :=
                (List.filter_sublist _).map LocalDisk.name
              have hfreeNodup : ((freeDevices nodeEntry0.2 old).map LocalDisk.name).Nodup :=
                hnodupAll.sublist hfreeSub
              have hfreeCount :
                  ((freeDevices nodeEntry0.2 old).map LocalDisk.name).count d'.name = 1 := by
                have hle := List.nodup_iff_count_le_one.mp hfreeNodup d'.name
                have hpos : 0 < ((freeDevices nodeEntry0.2 old).map LocalDisk.name).count
                    d'.name := by
                  rw [List.count_pos_iff]
                  exact List.mem_map.mpr ⟨n, hnfree, hnameEq⟩
                omega
              have hdevCount : (devices.map Device.name).count d'.name = 1 := by
                have hle := List.nodup_iff_count_le_one.mp hnodupDev d'.name
                have hpos : 0 < (devices.map Device.name).count d'.name := by
                  rw [List.count_pos_iff]
                  exact List.mem_map.mpr ⟨d', hd'mem, rfl⟩
                omega
              rw [hold, count_explicitClaims, hdevCount, hfreeCount]
          · rw [if_neg hsel] at h1
            simp only [Prod.mk.injEq] at h1
            have : explicitSelect devices (freeDevices nodeEntry0.2 old) = [] :=
              List.length_eq_zero.mp (by omega)
            exact absurd (this ▸ h1.1.symm) hne
        · rw [if_neg hdev] at h1
          dsimp only at h1
          by_cases hsel :
              (filterSelect rmatch filter (freeDevices nodeEntry0.2 old)).length > 0
          · rw [if_pos hsel] at h1
            simp only [Prod.mk.injEq] at h1
            obtain ⟨hr1, hs1, _⟩ := h1
            subst hr1
            subst hs1
            constructor
            · unfold GetAvailableDevices
              rw [if_neg hguard]
              have hraw1 : (updateInUseRecord sMid nodeName
                  (old ++ filterClaims rmatch filter (freeDevices nodeEntry0.2 old))).raw
                    = s.raw := hrawMid
              rw [hraw1, hfind, ListDevicesInUse_after_update hn hex]
              dsimp only
              rw [gadSelection_reachable, if_neg hdev]
              have : filterSelect rmatch filter
                  (freeDevices nodeEntry0.2 (old ++ filterClaims rmatch filter
                    (freeDevices nodeEntry0.2 old))) = [] := by
                rw [filterSelect, filterClaims_second_nil]
                rfl
              rw [this]
              rfl
            · intro nodeEntry hfind2 hnodupAll _ rec2 hrec2 d hd
              have he : nodeEntry0 = nodeEntry := Option.some.inj hfind2
              subst he
              obtain ⟨k, hk, _⟩ := updateInUse_find sMid.inUse nodeName
                (old ++ filterClaims rmatch filter (freeDevices nodeEntry0.2 old)) hex
              have hrec2' : rec2 = (k, some (old ++
                  filterClaims rmatch filter (freeDevices nodeEntry0.2 old))) := by
                have hkk : (updateInUseRecord sMid nodeName
                    (old ++ filterClaims rmatch filter
                      (freeDevices nodeEntry0.2 old))).inUse.find?
                      (fun r => r.1 == nodeName && r.2.isSome) = some (k, some (old ++
                        filterClaims rmatch filter (freeDevices nodeEntry0.2 old))) := hk
                rw [hrec2] at hkk
                exact Option.some.inj hkk
              rw [hrec2', Option.getD_some, List.map_append, List.count_append]
              rw [filterSelect, List.mem_map] at hd
              obtain ⟨n, hnmem, hdeq⟩ := hd
              subst hdeq
              dsimp only
              have hnfree : n ∈ freeDevices nodeEntry0.2 old := by
                rw [filterClaims, List.mem_filter] at hnmem
                exact hnmem.1
              have hfreeMem := hnfree
              rw [freeDevices, List.mem_filter] at hfreeMem
              obtain ⟨hnall, hnotused⟩ := hfreeMem
              rw [Bool.not_eq_true', List.any_eq_false] at hnotused
              have hold : (old.map LocalDisk.name).count n.name = 0 := by
                rw [List.count_eq_zero]
                intro hmem
                rw [List.mem_map] at hmem
                obtain ⟨u, humem, huname⟩ := hmem
                have := hnotused u humem
                rw [huname] at this
                simp at this
              have hfreeSub : ((freeDevices nodeEntry0.2 old).map LocalDisk.name).Sublist
                  (nodeEntry0.2.map LocalDisk.name) :=
                (List.filter_sublist _).map LocalDisk.name
              have hfreeNodup : ((freeDevices nodeEntry0.2 old).map LocalDisk.name).Nodup :=
                hnodupAll.sublist hfreeSub
              have hclaimSub : ((filterClaims rmatch filter
                  (freeDevices nodeEntry0.2 old)).map LocalDisk.name).Sublist
                    ((freeDevices nodeEntry0.2 old).map LocalDisk.name) :=
                (List.filter_sublist _).map LocalDisk.name
              have hle2 : ((filterClaims rmatch filter
                  (freeDevices nodeEntry0.2 old)).map LocalDisk.name).count n.name ≤
                    ((freeDevices nodeEntry0.2 old).map LocalDisk.name).count n.name :=
                hclaimSub.count_le n.name
              have hle1 := List.nodup_iff_count_le_one.mp hfreeNodup n.name
              have hpos : 0 < ((filterClaims rmatch filter
                  (freeDevices nodeEntry0.2 old)).map LocalDisk.name).count n.name := by
                rw [List.count_pos_iff]
                exact List.mem_map.mpr ⟨n, hnmem, rfl⟩
              rw [hold]
              omega
          · rw [if_neg hsel] at h1
            simp only [Prod.mk.injEq] at h1
            have : filterSelect rmatch filter (freeDevices nodeEntry0.2 old) = [] :=
              List.length_eq_zero.mp (by omega)
            exact absurd (this ▸ h1.1.symm) hne

/-- Witness for the amended C1: after the first call claimed sda, the second
call is a no-op returning nothing, and the in-use record holds sda once. -/
theorem c1_witness :
    GetAvailableDevices
        ⟨[("node1", [⟨"sda", 100, ""⟩])], [("node1", some [⟨"sda", 100, ""⟩])]⟩
        "node1" [⟨"sda"⟩] "" false (fun _ _ => some true) =
      ([], ⟨[("node1", [⟨"sda", 100, ""⟩])], [("node1", some [⟨"sda", 100, ""⟩])]⟩, none) ∧
    ((((("node1", some [(⟨"sda", 100, ""⟩ : LocalDisk)])) :
        String × Option (List LocalDisk)).2.getD []).map LocalDisk.name).count
      (Device.name ⟨"sda"⟩) = 1 :=
  let thm := c1_amended ⟨[("node1", [⟨"sda", 100, ""⟩])], []⟩ "node1" [⟨"sda"⟩] "" false
    (fun _ _ => some true) [⟨"sda"⟩]
    ⟨[("node1", [⟨"sda", 100, ""⟩])], [("node1", some [⟨"sda", 100, ""⟩])]⟩
    (by decide) (by decide)
  ⟨thm.1,
   thm.2 ("node1", [⟨"sda", 100, ""⟩]) (by decide) (by decide) (by decide)
     ("node1", some [⟨"sda", 100, ""⟩]) (by decide) ⟨"sda"⟩ (by decide)⟩

/-- C8: when the serialized device list equals the stored content byte for
byte, no write occurs and the record is unchanged; when the content differs,
the record afterwards holds the new serialization through one update; when
the record is absent it is created carrying the app and node labels and then
holds the new serialization. -/
theorem c8_publish_idempotent (nodeName namespaceName deviceStr : String)
    (store : Option RawCM) :
    (∀ cm, store = some cm → cm.data.getD "" = deviceStr →
      publishDevices nodeName namespaceName deviceStr store = (store, [])) ∧
    (∀ cm, store = some cm → cm.data.getD "" ≠ deviceStr →
      publishDevices nodeName namespaceName deviceStr store =
        (some { cm with data := some deviceStr },
          [CMWrite.update { cm with data := some deviceStr }])) ∧
    (store = none → deviceStr ≠ "" →
      publishDevices nodeName namespaceName deviceStr store =
        (some { name := RawDeviceCMName ++ nodeName, namespaceName := namespaceName,
                labels := [(AppAttr, AppName), (NodeAttr, nodeName)],
                data := some deviceStr },
          [CMWrite.create { name := RawDeviceCMName ++ nodeName,
                            namespaceName := namespaceName,
                            labels := [(AppAttr, AppName), (NodeAttr, nodeName)],
                            data := none },
           CMWrite.update { name := RawDeviceCMName ++ nodeName,
                            namespaceName := namespaceName,
                            labels := [(AppAttr, AppName), (NodeAttr, nodeName)],
                            data := some deviceStr }])) := by
  refine ⟨?_, ?_, ?_⟩
  · intro cm hs hsame
    subst hs
    unfold publishDevices
    dsimp only
    rw [if_pos (beq_iff_eq.mpr hsame.symm)]
  · intro cm hs hdiff
    subst hs
    unfold publishDevices
    dsimp only
    rw [if_neg (fun hb => hdiff (beq_iff_eq.mp hb).symm)]
  · intro hs hne
    subst hs
    unfold publishDevices
    dsimp only
    rw [if_neg (fun hb => hne (beq_iff_eq.mp hb))]

/-- Witness for C8: an unchanged record produces no write; an absent record
is created with the labels and updated with the serialization. -/
theorem c8_witness :
    publishDevices "node1" "ns" "[]"
        (some { name := "raw-device-node1", namespaceName := "ns",
                labels := [("app", "rook-discover"), ("rook.io/node", "node1")],
                data := some "[]" }) =
      (some { name := "raw-device-node1", namespaceName := "ns",
              labels := [("app", "rook-discover"), ("rook.io/node", "node1")],
              data := some "[]" }, []) ∧
    publishDevices "node1" "ns" "[]" none =
      (some { name := RawDeviceCMName ++ "node1", namespaceName := "ns",
              labels := [(AppAttr, AppName), (NodeAttr, "node1")],
              data := some "[]" },
        [CMWrite.create { name := RawDeviceCMName ++ "node1", namespaceName := "ns",
                          labels := [(AppAttr, AppName), (NodeAttr, "node1")],
                          data := none },
         CMWrite.update { name := RawDeviceCMName ++ "node1", namespaceName := "ns",
                          labels := [(AppAttr, AppName), (NodeAttr, "node1")],
                          data := some "[]" }]) :=
  ⟨(c8_publish_idempotent "node1" "ns" "[]" _).1 _ rfl (by decide),
   (c8_publish_idempotent "node1" "ns" "[]" none).2.2 rfl (by decide)⟩

/-- C6: a device-backed config with a partition scheme uses bluestore
exactly when the scheme store type is not filestore, and a directory-backed
config uses filestore exactly when its store config store type is not
bluestore; so devices default to bluestore and directories to filestore. -/
theorem c6_backend_selection (cfg : OsdConfig) :
    (∀ e, cfg.dir = false → cfg.partitionScheme = some e →
      (isBluestore cfg = true ↔ e.storeType ≠ Filestore)) ∧
    (cfg.dir = true → (isFilestore cfg = true ↔ cfg.storeConfig.storeType ≠ Bluestore)) := by
  constructor
  · intro e hdir hscheme
    unfold isBluestore isBluestoreDevice isBluestoreDir
    rw [hdir, hscheme]
    simp [beq_iff_eq]
  · intro hdir
    unfold isFilestore isFilestoreDevice isFilestoreDir
    rw [hdir]
    simp [beq_iff_eq]

/-- Witness for C6: a device with a blank scheme store type is bluestore; a
directory with a blank store config type is filestore. -/
theorem c6_witness :
    (isBluestore deviceCfgBlank = true ↔ ("" : String) ≠ Filestore) ∧
    (isFilestore dirCfgBlank = true ↔ ("" : String) ≠ Bluestore) :=
  ⟨(c6_backend_selection deviceCfgBlank).1 { id := 0, osdUUID := "", storeType := "" }
      rfl rfl,
   (c6_backend_selection dirCfgBlank).2 rfl⟩

theorem retryFrom_ok_iff (f : Nat → Except String Unit) :
    ∀ (n start : Nat), retryFrom f start n = .ok () ↔
      ∃ i, i < n ∧ f (start + i) = .ok () := by
  intro n
  induction n with
  | zero =>
    intro start
    constructor
    · intro h; cases h
    · intro ⟨i, hi, _⟩; omega
  | succ m ih =>
    intro start
    constructor
    · intro h
      unfold retryFrom at h
      cases hf : f start with
      | ok u => exact ⟨0, by omega, by rw [Nat.add_zero]; cases u; exact hf⟩
      | error e =>
        rw [hf] at h
        obtain ⟨i, hi, hfi⟩ := (ih (start + 1)).mp h
        exact ⟨i + 1, by omega, by rw [show start + (i + 1) = start + 1 + i by omega]; exact hfi⟩
    · intro ⟨i, hi, hfi⟩
      unfold retryFrom
      cases hf : f start with
      | ok u => rfl
      | error e =>
        apply (ih (start + 1)).mpr
        cases i with
        | zero =>
          rw [Nat.add_zero] at hfi
          rw [hfi] at hf
          cases hf
        | succ j =>
          exact ⟨j, by omega, by rw [show start + 1 + j = start + (j + 1) by omega]; exact hfi⟩

theorem retry_ok_iff (n d : Nat) (f : Nat → Except String Unit) :
    retry n d f = .ok () ↔ ∃ i, i < n ∧ f i = .ok () := by
  unfold retry
  rw [retryFrom_ok_iff]
  constructor
  · intro ⟨i, hi, hfi⟩
    exact ⟨i, hi, by rw [show i = 0 + i by omega]; exact hfi⟩
  · intro ⟨i, hi, hfi⟩
    exact ⟨i, hi, by rw [show 0 + i = i by omega]; exact hfi⟩

theorem contains_int_iff (l : List Int) (a : Int) : l.contains a = true ↔ a ∈ l := by
  induction l with
  | nil => simp
  | cons x xs ih =>
    rw [List.contains_cons, Bool.or_eq_true, ih, List.mem_cons, beq_iff_eq]

theorem checkPGs_ok_iff (osdID : Int) :
    ∀ pgs : List PGStat, checkPGs osdID pgs = .ok () ↔
      ∀ pg ∈ pgs, pg.upPrimaryID ≠ osdID ∧ pg.actingPrimaryID ≠ osdID ∧
        osdID ∉ pg.upOsdIDs ∧ osdID ∉ pg.actingOsdIDs := by
  intro pgs
  induction pgs with
  | nil => simp [checkPGs]
  | cons pg rest ih =>
    unfold checkPGs
    by_cases h1 : pg.upPrimaryID = osdID
    · rw [if_pos h1]
      constructor
      · intro h; cases h
      · intro h; exact absurd h1 (h pg (List.mem_cons_self pg rest)).1
    · rw [if_neg h1]
      by_cases h2 : pg.actingPrimaryID = osdID
      · rw [if_pos h2]
        constructor
        · intro h; cases h
        · intro h; exact absurd h2 (h pg (List.mem_cons_self pg rest)).2.1
      · rw [if_neg h2]
        by_cases h3 : osdID ∈ pg.upOsdIDs
        · rw [if_pos ((contains_int_iff _ _).mpr h3)]
          constructor
          · intro h; cases h
          · intro h; exact absurd h3 (h pg (List.mem_cons_self pg rest)).2.2.1
        · rw [if_neg (fun hb => h3 ((contains_int_iff _ _).mp hb))]
          by_cases h4 : osdID ∈ pg.actingOsdIDs
          · rw [if_pos ((contains_int_iff _ _).mpr h4)]
            constructor
            · intro h; cases h
            · intro h; exact absurd h4 (h pg (List.mem_cons_self pg rest)).2.2.2
          · rw [if_neg (fun hb => h4 ((contains_int_iff _ _).mp hb))]
            rw [ih]
            constructor
            · intro h p hp
              rcases List.mem_cons.mp hp with hpeq | hpr
              · subst hpeq
                exact ⟨h1, h2, h3, h4⟩
              · exact h p hpr
            · intro h p hp
              exact h p (List.mem_cons_of_mem pg hp)

theorem phase1Attempt_ok_iff (u : OSDUsage) (osdID : Int) (env : RebalanceEnv)
    (i : Nat) :
    phase1Attempt u osdID env i = .ok () ↔
      ∃ currUsage, env.usage i = .ok currUsage ∧
        ∃ initRow currRow, u.byID osdID = some initRow ∧
          currUsage.byID osdID = some currRow ∧
          (currRow.usedKB < initRow.usedKB ∨ currRow.pgs < initRow.pgs) := by
  unfold phase1Attempt
  cases hu : env.usage i with
  | error e => simp
  | ok currUsage =>
    dsimp only
    cases hinit : u.byID osdID with
    | none => simp [hinit]
    | some initRow =>
      cases hcurr : currUsage.byID osdID with
      | none => simp [hinit, hcurr]
      | some currRow =>
        dsimp only
        constructor
        · intro h
          split at h
          · cases h
          · next hcond =>
            refine ⟨currUsage, rfl, initRow, currRow, rfl, hcurr, ?_⟩
            rw [Bool.and_eq_true, decide_eq_true_eq, decide_eq_true_eq] at hcond
            push_neg at hcond
            omega
        · intro ⟨cu, hcu, ir, cr, hir, hcr, hlt⟩
          have hcuEq : currUsage = cu := Except.ok.inj hcu
          subst hcuEq
          have hirEq : initRow = ir := Option.some.inj hir
          subst hirEq
          rw [hcurr] at hcr
          have hcrEq : currRow = cr := Option.some.inj hcr
          subst hcrEq
          have hcondB : (decide (initRow.usedKB ≤ currRow.usedKB) &&
              decide (initRow.pgs ≤ currRow.pgs)) ≠ true := by
            rw [Ne, Bool.and_eq_true, decide_eq_true_eq, decide_eq_true_eq]
            omega
          rw [if_neg hcondB]

theorem phase2Attempt_ok_iff (osdID : Int) (env : RebalanceEnv) (i : Nat) :
    phase2Attempt osdID env i = .ok () ↔
      ∃ pgs, env.pgDump i = .ok pgs ∧
        (∀ pg ∈ pgs, pg.upPrimaryID ≠ osdID ∧ pg.actingPrimaryID ≠ osdID ∧
          osdID ∉ pg.upOsdIDs ∧ osdID ∉ pg.actingOsdIDs) ∧
        env.clean i = .ok () := by
  unfold phase2Attempt
  cases hp : env.pgDump i with
  | error e => simp
  | ok pgs =>
    dsimp only
    constructor
    · intro h
      cases hc : checkPGs osdID pgs with
      | error e => rw [hc] at h; cases h
      | ok v =>
        rw [hc] at h
        refine ⟨pgs, rfl, (checkPGs_ok_iff osdID pgs).mp ?_, h⟩
        cases v
        exact hc
    · intro ⟨pgs2, hpgs2, hall, hclean⟩
      have hps : pgs = pgs2 := Except.ok.inj hpgs2
      subst hps
      rw [(checkPGs_ok_iff osdID pgs).mpr hall]
      exact hclean

/-- C5: waitForRebalance succeeds exactly when (a) whenever a usage baseline
is present, within the 20 five-second-spaced attempts of phase one some
usage poll shows the used space or the placement-group count of the daemon
decreased versus the baseline (failing all 20 is an error), and (b) within
the 3000 fifteen-second-spaced attempts of phase two some placement-group
dump names the daemon in no up/acting primary or member set while the
cluster reports clean. -/
theorem c5_waitForRebalance_phases (env : RebalanceEnv) (osdID : Int)
    (initialUsage : Option OSDUsage) :
    waitForRebalance env osdID initialUsage = .ok () ↔
      ((∀ u, initialUsage = some u →
          ∃ i, i < 20 ∧ ∃ currUsage, env.usage i = .ok currUsage ∧
            ∃ initRow currRow, u.byID osdID = some initRow ∧
              currUsage.byID osdID = some currRow ∧
              (currRow.usedKB < initRow.usedKB ∨ currRow.pgs < initRow.pgs)) ∧
        (∃ j, j < 3000 ∧ ∃ pgs, env.pgDump j = .ok pgs ∧
          (∀ pg ∈ pgs, pg.upPrimaryID ≠ osdID ∧ pg.actingPrimaryID ≠ osdID ∧
            osdID ∉ pg.upOsdIDs ∧ osdID ∉ pg.actingOsdIDs) ∧
          env.clean j = .ok ())) := by
  cases initialUsage with
  | none =>
    unfold waitForRebalance
    rw [retry_ok_iff]
    constructor
    · intro ⟨j, hj, hok⟩
      exact ⟨fun u hu => Option.noConfusion hu, j, hj,
        (phase2Attempt_ok_iff osdID env j).mp hok⟩
    · intro ⟨_, j, hj, hpgs⟩
      exact ⟨j, hj, (phase2Attempt_ok_iff osdID env j).mpr hpgs⟩
  | some u =>
    unfold waitForRebalance
    cases hr1 : retry 20 5 (phase1Attempt u osdID env) with
    | error e =>
      dsimp only
      rw [hr1]
      constructor
      · intro h; cases h
      · intro ⟨h1, _⟩
        obtain ⟨i, hi, hcond⟩ := h1 u rfl
        have hok : retry 20 5 (phase1Attempt u osdID env) = .ok () :=
          (retry_ok_iff _ _ _).mpr ⟨i, hi, (phase1Attempt_ok_iff u osdID env i).mpr hcond⟩
        rw [hr1] at hok
        cases hok
    | ok v =>
      cases v
      dsimp only
      rw [hr1]
      dsimp only
      rw [retry_ok_iff]
      constructor
      · intro ⟨j, hj, hok⟩
        refine ⟨fun u2 hu2 => ?_, j, hj, (phase2Attempt_ok_iff osdID env j).mp hok⟩
        have hu2e : u = u2 := Option.some.inj hu2
        subst hu2e
        obtain ⟨i, hi, hfi⟩ := (retry_ok_iff 20 5 (phase1Attempt u osdID env)).mp hr1
        exact ⟨i, hi, (phase1Attempt_ok_iff u osdID env i).mp hfi⟩
      · intro ⟨_, j, hj, hpgs⟩
        exact ⟨j, hj, (phase2Attempt_ok_iff osdID env j).mpr hpgs⟩

/-- Counterexample to C3 as stated: every step the claim calls fatal
succeeds (reweight, mark-out, rebalance-wait, no tracked process to stop),
the cleanup steps succeed too, yet removeOSD returns an error, because the
purge step also aborts the removal and the claim omits it. -/
theorem c3_counterexample :
    ({ getOSDUsage := .error "unavailable", crushReweight := .ok "reweighted",
       markOut := .ok (),
       rebalance := { usage := fun _ => .error "na", pgDump := fun _ => .ok [],
                      clean := fun _ => .ok () },
       procTracked := false, procStop := .ok (), purge := .error "purge failed",
       deleteFileSystem := .ok (), removeRootDir := .ok () } : RemoveEnv).crushReweight
        = .ok "reweighted" ∧
    ({ getOSDUsage := .error "unavailable", crushReweight := .ok "reweighted",
       markOut := .ok (),
       rebalance := { usage := fun _ => .error "na", pgDump := fun _ => .ok [],
                      clean := fun _ => .ok () },
       procTracked := false, procStop := .ok (), purge := .error "purge failed",
       deleteFileSystem := .ok (), removeRootDir := .ok () } : RemoveEnv).markOut
        = .ok () ∧
    waitForRebalance
      { usage := fun _ => .error "na", pgDump := fun _ => .ok [],
        clean := fun _ => .ok () } 1
      (Except.toOption (.error "unavailable" : Except String OSDUsage)) = .ok () ∧
    removeOSD
      { getOSDUsage := .error "unavailable", crushReweight := .ok "reweighted",
        markOut := .ok (),
        rebalance := { usage := fun _ => .error "na", pgDump := fun _ => .ok [],
                       clean := fun _ => .ok () },
        procTracked := false, procStop := .ok (), purge := .error "purge failed",
        deleteFileSystem := .ok (), removeRootDir := .ok () } 1 =
      .error "failed to purge osd from the cluster: purge failed" := by
  refine ⟨rfl, rfl, ?_, ?_⟩
  · rfl
  · rfl

/-- C3 amended: removeOSD succeeds exactly when the reweight, mark-out,
rebalance-wait, purge steps succeed and the stop step succeeds whenever a
process is tracked; baseline-usage, backup-filesystem and root-directory
failures never make the removal fail. -/
theorem c3_removeOSD_fatal_steps (env : RemoveEnv) (osdID : Int) :
    removeOSD env osdID = .ok () ↔
      ((∃ o, env.crushReweight = .ok o) ∧ env.markOut = .ok () ∧
        waitForRebalance env.rebalance osdID env.getOSDUsage.toOption = .ok () ∧
        (env.procTracked = true → env.procStop = .ok ()) ∧
        env.purge = .ok ()) := by
  unfold removeOSD
  cases hrw : env.crushReweight with
  | error e =>
    dsimp only
    constructor
    · intro h; cases h
    · intro ⟨⟨o, ho⟩, _⟩
      cases ho
  | ok o =>
    dsimp only
    cases hmo : env.markOut with
    | error e =>
      dsimp only
      constructor
      · intro h; cases h
      · intro ⟨_, hmo2, _⟩
        cases hmo2
    | ok v =>
      cases v
      dsimp only
      cases hwr : waitForRebalance env.rebalance osdID env.getOSDUsage.toOption with
      | error e =>
        dsimp only
        constructor
        · intro h; cases h
        · intro ⟨_, _, hwr2, _⟩
          cases hwr2
      | ok v =>
        cases v
        dsimp only
        cases hst : (if env.procTracked then env.procStop else .ok ()) with
        | error e =>
          dsimp only
          constructor
          · intro h; cases h
          · intro ⟨_, _, _, hstop, _⟩
            cases htr : env.procTracked with
            | true =>
              rw [htr, if_pos rfl, hstop htr] at hst
              cases hst
            | false =>
              rw [htr] at hst
              rw [if_neg (by simp)] at hst
              cases hst
        | ok v =>
          cases v
          dsimp only
          cases hpu : env.purge with
          | error e =>
            dsimp only
            constructor
            · intro h; cases h
            · intro ⟨_, _, _, _, hpu2⟩
              cases hpu2
          | ok v =>
            cases v
            dsimp only
            constructor
            · intro _
              refine ⟨⟨o, rfl⟩, rfl, rfl, ?_, rfl⟩
              intro htr
              rw [htr, if_pos rfl] at hst
              cases hstop : env.procStop with
              | error e2 => rw [hstop] at hst; cases hst
              | ok v2 => cases v2; rfl
            · intro _
              rfl

theorem lastErrCombine_nil (le : Option String) : lastErrCombine [] le = le := rfl

theorem lastErrCombine_cons (e : String) (errs : List String) (le : Option String) :
    lastErrCombine (e :: errs) le = lastErrCombine errs (some e) := by
  unfold lastErrCombine
  cases errs with
  | nil => rfl
  | cons e2 rest =>
    rw [List.getLast?_cons_cons]
    cases h : (e2 :: rest).getLast? with
    | some x => rfl
    | none => simp at h

theorem lastErrCombine_none (errs : List String) :
    lastErrCombine errs none = errs.getLast? := by
  unfold lastErrCombine
  cases errs.getLast? with
  | some e => rfl
  | none => rfl

/-- Loop characterization when every registration succeeds: the loop visits
every entry, starts each one under its (possibly freshly assigned) id,
collects the successes, mutates the map per assignIDs and reports the last
start error. -/
theorem cdLoop_spec (env : DirsEnv) (regID : Nat → Int) (regUUID : Nat → String)
    (hreg : ∀ k, env.register k = .ok (regID k, regUUID k)) :
    ∀ (l : List (String × Int)) (c : Nat) (osds : List OSDInfo)
      (done : List (String × Int)) (lastErr : Option String),
      cdLoop env l c osds done lastErr =
        (osds ++ (assignIDs regID l c).filterMap (startOk env),
         done ++ assignIDs regID l c,
         lastErrCombine ((assignIDs regID l c).filterMap (startErr env)) lastErr) := by
  intro l
  induction l with
  | nil =>
    intro c osds done lastErr
    simp [cdLoop, assignIDs, lastErrCombine_nil]
  | cons p rest ih =>
    obtain ⟨dirPath, osdID⟩ := p
    intro c osds done lastErr
    by_cases hid : (osdID == unassignedOSDID) = true
    · simp only [cdLoop, hid, if_true, hreg c]
      cases hs : env.start dirPath (regID c) with
      | error e =>
        dsimp only
        rw [ih (c + 1) osds (done ++ [(dirPath, regID c)]) (some e)]
        have hok : startOk env (dirPath, regID c) = none := by
          unfold startOk
          rw [hs]
          rfl
        have herr : startErr env (dirPath, regID c) = some e := by
          unfold startErr
          rw [hs]
        simp only [assignIDs, hid, if_true, List.filterMap_cons, hok, herr,
          lastErrCombine_cons, List.append_assoc, List.cons_append, List.nil_append]
      | ok osd =>
        dsimp only
        rw [ih (c + 1) (osds ++ [osd]) (done ++ [(dirPath, regID c)]) lastErr]
        have hok : startOk env (dirPath, regID c) = some osd := by
          unfold startOk
          rw [hs]
          rfl
        have herr : startErr env (dirPath, regID c) = none := by
          unfold startErr
          rw [hs]
        simp only [assignIDs, hid, if_true, List.filterMap_cons, hok, herr,
          List.append_assoc, List.cons_append, List.nil_append]
    · simp only [cdLoop, hid, Bool.false_eq_true, if_false]
      cases hs : env.start dirPath osdID with
      | error e =>
        dsimp only
        rw [ih c osds (done ++ [(dirPath, osdID)]) (some e)]
        have hok : startOk env (dirPath, osdID) = none := by
          unfold startOk
          rw [hs]
          rfl
        have herr : startErr env (dirPath, osdID) = some e := by
          unfold startErr
          rw [hs]
        simp only [assignIDs, hid, Bool.false_eq_true, if_false, List.filterMap_cons,
          hok, herr, lastErrCombine_cons, List.append_assoc, List.cons_append,
          List.nil_append]
      | ok osd =>
        dsimp only
        rw [ih c (osds ++ [osd]) (done ++ [(dirPath, osdID)]) lastErr]
        have hok : startOk env (dirPath, osdID) = some osd := by
          unfold startOk
          rw [hs]
          rfl
        have herr : startErr env (dirPath, osdID) = none := by
          unfold startErr
          rw [hs]
        simp only [assignIDs, hid, Bool.false_eq_true, if_false, List.filterMap_cons,
          hok, herr, List.append_assoc, List.cons_append, List.nil_append]

/-- The map component of configureDirs under successful registration. -/
theorem configureDirs_dirs_eq (env : DirsEnv) (dirs : List (String × Int))
    (regID : Nat → Int) (regUUID : Nat → String)
    (hreg : ∀ k, env.register k = .ok (regID k, regUUID k)) :
    (configureDirs env dirs).2.1 = assignIDs regID dirs 0 := by
  unfold configureDirs
  by_cases hd : dirs.isEmpty
  · rw [if_pos hd]
    have hnil : dirs = [] := List.isEmpty_iff.mp hd
    subst hnil
    rfl
  · rw [if_neg hd, cdLoop_spec env regID regUUID hreg dirs 0 [] [] none]
    rfl

/-- C4: with every registration succeeding, configureDirs processes each
directory of its map, starting each one; start failures do not abort the
pass; the returned OSDInfos are exactly those of the directories whose start
succeeded, and the returned error is the last start error (none when every
directory succeeded). -/
theorem c4_configureDirs_collects (env : DirsEnv) (dirs : List (String × Int))
    (regID : Nat → Int) (regUUID : Nat → String)
    (hreg : ∀ k, env.register k = .ok (regID k, regUUID k)) :
    configureDirs env dirs =
      ((assignIDs regID dirs 0).filterMap (startOk env),
       assignIDs regID dirs 0,
       ((assignIDs regID dirs 0).filterMap (startErr env)).getLast?) := by
  unfold configureDirs
  by_cases hd : dirs.isEmpty
  · rw [if_pos hd]
    have hnil : dirs = [] := List.isEmpty_iff.mp hd
    subst hnil
    rfl
  · rw [if_neg hd, cdLoop_spec env regID regUUID hreg dirs 0 [] [] none]
    rw [List.nil_append, List.nil_append, lastErrCombine_none]

theorem assignIDs_length (regID : Nat → Int) :
    ∀ (l : List (String × Int)) (c : Nat), (assignIDs regID l c).length = l.length := by
  intro l
  induction l with
  | nil => intro c; rfl
  | cons p rest ih =>
    obtain ⟨dirPath, osdID⟩ := p
    intro c
    by_cases hid : (osdID == unassignedOSDID) = true
    · simp only [assignIDs, hid, if_true, List.length_cons, ih]
    · simp only [assignIDs, hid, Bool.false_eq_true, if_false, List.length_cons, ih]

theorem assignIDs_getElem (regID : Nat → Int) :
    ∀ (l : List (String × Int)) (c i : Nat), i < l.length →
      ∃ dp v, l[i]? = some (dp, v) ∧
        (assignIDs regID l c)[i]? =
          some (dp, if v = unassignedOSDID then regID (c + countUnassigned (l.take i))
                    else v) := by
  intro l
  induction l with
  | nil => intro c i hi; cases hi
  | cons p rest ih =>
    obtain ⟨dirPath, osdID⟩ := p
    intro c i hi
    cases i with
    | zero =>
      refine ⟨dirPath, osdID, by simp, ?_⟩
      by_cases hid : osdID = unassignedOSDID
      · have hb : (osdID == unassignedOSDID) = true := beq_iff_eq.mpr hid
        simp only [assignIDs, hb, if_true, List.take_zero, countUnassigned,
          List.filter_nil, List.length_nil, Nat.add_zero, List.getElem?_cons_zero,
          if_pos hid]
      · have hb : (osdID == unassignedOSDID) = false := beq_eq_false_iff_ne.mpr hid
        simp only [assignIDs, hb, Bool.false_eq_true, if_false,
          List.getElem?_cons_zero, if_neg hid]
    | succ j =>
      have hj : j < rest.length := by simpa using hi
      by_cases hid : osdID = unassignedOSDID
      · obtain ⟨dp, v, h1, h2⟩ := ih (c + 1) j hj
        refine ⟨dp, v, by simpa using h1, ?_⟩
        have hb : (osdID == unassignedOSDID) = true := beq_iff_eq.mpr hid
        have hcount : countUnassigned (((dirPath, osdID) :: rest).take (j + 1)) =
            1 + countUnassigned (rest.take j) := by
          simp only [List.take_succ_cons, countUnassigned, List.filter_cons, hb,
            if_true, List.length_cons]
          omega
        rw [hcount]
        have harith : c + (1 + countUnassigned (rest.take j)) =
            c + 1 + countUnassigned (rest.take j) := by omega
        rw [harith]
        simpa [assignIDs, hb, List.getElem?_cons_succ] using h2
      · obtain ⟨dp, v, h1, h2⟩ := ih c j hj
        refine ⟨dp, v, by simpa using h1, ?_⟩
        have hb : (osdID == unassignedOSDID) = false := beq_eq_false_iff_ne.mpr hid
        have hcount : countUnassigned (((dirPath, osdID) :: rest).take (j + 1)) =
            countUnassigned (rest.take j) := by
          simp only [List.take_succ_cons, countUnassigned, List.filter_cons, hb,
            Bool.false_eq_true, if_false]
        rw [hcount]
        simpa [assignIDs, hb, List.getElem?_cons_succ] using h2

/-- C10: with every registration succeeding, the directory map configureDirs
returns (the mutated caller map) has the same keys in the same positions;
entries that carried the unassigned id now carry the id registered at their
registration rank, and entries with an assigned id are unchanged. -/
theorem c10_configureDirs_mutates_map (env : DirsEnv) (dirs : List (String × Int))
    (regID : Nat → Int) (regUUID : Nat → String)
    (hreg : ∀ k, env.register k = .ok (regID k, regUUID k)) :
    ((configureDirs env dirs).2.1).length = dirs.length ∧
    ∀ i, i < dirs.length →
      ∃ dp v, dirs[i]? = some (dp, v) ∧
        ((configureDirs env dirs).2.1)[i]? =
          some (dp, if v = unassignedOSDID then regID (countUnassigned (dirs.take i))
                    else v) := by
  rw [configureDirs_dirs_eq env dirs regID regUUID hreg]
  constructor
  · exact assignIDs_length regID dirs 0
  · intro i hi
    obtain ⟨dp, v, h1, h2⟩ := assignIDs_getElem regID dirs 0 i hi
    rw [Nat.zero_add] at h2
    exact ⟨dp, v, h1, h2⟩

/-- Witness for C4: directory d1 (unassigned, start fails) and d2 (id 3,
start succeeds) yield the one started OSDInfo, the mutated map and the last
start error. -/
theorem c4_witness :
    configureDirs dirsEnvW [("d1", -1), ("d2", 3)] =
      ([{ id := 3, dataPath := "d2", isFileStore := true }],
       [("d1", 10), ("d2", 3)], some "start failed") :=
  (c4_configureDirs_collects dirsEnvW [("d1", -1), ("d2", 3)]
      (fun k => (10 + k : Int)) (fun _ => "uuid") (fun _ => rfl)).trans (by decide)

/-- Witness for C10: the unassigned entry d1 now carries the first
registered id and the assigned entry d2 is unchanged. -/
theorem c10_witness :
    ((configureDirs dirsEnvW [("d1", -1), ("d2", 3)]).2.1).length = 2 ∧
    ((configureDirs dirsEnvW [("d1", -1), ("d2", 3)]).2.1)[0]? = some ("d1", 10) ∧
    ((configureDirs dirsEnvW [("d1", -1), ("d2", 3)]).2.1)[1]? = some ("d2", 3) := by
  have h := c10_configureDirs_mutates_map dirsEnvW [("d1", -1), ("d2", 3)]
    (fun k => (10 + k : Int)) (fun _ => "uuid") (fun _ => rfl)
  refine ⟨h.1, ?_, ?_⟩
  · obtain ⟨dp, v, h1, h2⟩ := h.2 0 (by decide)
    have h1' : some (("d1" : String), (-1 : Int)) = some (dp, v) :=
      (by decide : ([("d1", (-1 : Int)), ("d2", 3)])[0]? = some ("d1", -1)).symm.trans h1
    have hp := Option.some.inj h1'
    rw [Prod.mk.injEq] at hp
    obtain ⟨hdp, hv⟩ := hp
    subst hdp
    subst hv
    rw [h2]
    decide
  · obtain ⟨dp, v, h1, h2⟩ := h.2 1 (by decide)
    have h1' : some (("d2" : String), (3 : Int)) = some (dp, v) :=
      (by decide : ([("d1", (-1 : Int)), ("d2", 3)])[1]? = some ("d2", 3)).symm.trans h1
    have hp := Option.some.inj h1'
    rw [Prod.mk.injEq] at hp
    obtain ⟨hdp, hv⟩ := hp
    subst hdp
    subst hv
    rw [h2]
    decide
